import Mathlib

/-!
Verification of the package-reference canonicalization and validation engine
of the registry repository.

The development shallowly embeds:
  * the jsonb value model and the PostgreSQL jsonb operators used by the
    migration script `apply_migration_010_to_prod.sql` (`->`, `->>`, `?`,
    `-`, `jsonb_set`, `jsonb_array_length`, `jsonb_array_elements`,
    `jsonb_build_array`, string `||` with SQL NULL propagation, and SQL
    three-valued boolean guards);
  * the five plpgsql helper functions of that script and the corpus-level
    UPDATE statement, for both the live (COMMIT) and dry-run (ROLLBACK)
    variants, via a small transaction machine;
  * the Go function `ValidateOCI` from
    `internal/validators/registries/oci.go`, with the two external calls
    (go-containerregistry reference parsing and the remote image fetch)
    supplied as oracle parameters;
  * the transport URL pattern.

SQL NULL is modeled as `Option.none` at every point where a SQL expression
is nullable; jsonb `null` is the distinct value `Json.null`.  plpgsql
runtime errors (deleting from / setting a path in a scalar, taking the
array length of a non-array) are modeled with `Except`.
-/

namespace Registry

/-- The jsonb value model.  Numbers are modeled as integers: the migration
script never performs numeric computation, a number can only influence the
control flow through the text produced by the `->>` operator. -/
inductive Json where
  | null : Json
  | bool : Bool → Json
  | num : Int → Json
  | str : String → Json
  | arr : List Json → Json
  | obj : List (String × Json) → Json
  deriving Repr

mutual

/-- Boolean equality of jsonb values (the nested inductive rules out a
derived instance). -/
def beqJson : Json → Json → Bool
  | .null, .null => true
  | .bool a, .bool b => a == b
  | .num a, .num b => a == b
  | .str a, .str b => a == b
  | .arr a, .arr b => beqJsonList a b
  | .obj a, .obj b => beqJsonFields a b
  | _, _ => false

def beqJsonList : List Json → List Json → Bool
  | [], [] => true
  | a :: as, b :: bs => beqJson a b && beqJsonList as bs
  | _, _ => false

def beqJsonFields : List (String × Json) → List (String × Json) → Bool
  | [], [] => true
  | (k, v) :: as, (l, w) :: bs => k == l && beqJson v w && beqJsonFields as bs
  | _, _ => false

end

/-- plpgsql / SQL runtime errors raised by the jsonb operators used in the
migration script. -/
inductive PgError where
  | cannotDeleteFromScalar : PgError
  | cannotSetPathInScalar : PgError
  | pathElementNotInteger : PgError
  | notAnArray : PgError
  deriving DecidableEq, Repr

mutual

/-- Compact rendering of a jsonb value, used by the `->>` operator when the
field value is not a string (PostgreSQL renders such values as their jsonb
text).  The exact spelling never influences any guard in the script; only
presence, absence and string contents do. -/
def renderJson : Json → String
  | .null => "null"
  | .bool true => "true"
  | .bool false => "false"
  | .num n => toString n
  | .str s => "\"" ++ s ++ "\""
  | .arr xs => "[" ++ renderElems xs ++ "]"
  | .obj fs => "\x7b" ++ renderFields fs ++ "\x7d"

def renderElems : List Json → String
  | [] => ""
  | [x] => renderJson x
  | x :: xs => renderJson x ++ ", " ++ renderElems xs

def renderFields : List (String × Json) → String
  | [] => ""
  | [(k, v)] => "\"" ++ k ++ "\": " ++ renderJson v
  | (k, v) :: fs => "\"" ++ k ++ "\": " ++ renderJson v ++ ", " ++ renderFields fs

end

/-- First binding of a key in an object's field list. -/
def lookupField : List (String × Json) → String → Option Json
  | [], _ => none
  | (k, v) :: fs, key => if k = key then some v else lookupField fs key

/-- Replace the first binding of `key` (or append one): the effect of
`jsonb_set` with a single-key path on an object. -/
def setField : List (String × Json) → String → Json → List (String × Json)
  | [], key, v => [(key, v)]
  | (k, w) :: fs, key, v =>
    if k = key then (key, v) :: fs else (k, w) :: setField fs key v

/-- Remove every binding of `key`: the effect of the jsonb `-` operator on
an object. -/
def delField : List (String × Json) → String → List (String × Json)
  | [], _ => []
  | (k, w) :: fs, key =>
    if k = key then delField fs key else (k, w) :: delField fs key

/-- The jsonb `->` operator with a text key: field of an object, SQL NULL
(`none`) on a missing key or a non-object operand. -/
def jGet : Json → String → Option Json
  | .obj fs, key => lookupField fs key
  | _, _ => none

/-- Text of a jsonb value as produced by `->>`: jsonb `null` becomes SQL
NULL, strings are unquoted, anything else is rendered. -/
def jTextVal : Json → Option String
  | .null => none
  | .str s => some s
  | v => some (renderJson v)

/-- The jsonb `->>` operator on a nullable operand (SQL NULL in, SQL NULL
out). -/
def sqlText : Option Json → String → Option String
  | none, _ => none
  | some j, key => (jGet j key).bind jTextVal

/-- The jsonb `?` operator: top-level key of an object, element of an array
of strings, or equality with a string scalar. -/
def jbHas : Json → String → Bool
  | .obj fs, key => (lookupField fs key).isSome
  | .arr xs, key => xs.any (fun e => beqJson e (Json.str key))
  | .str s, key => s = key
  | _, _ => false

/-- `x ? key` as a guard condition: SQL three-valued logic makes the guard
fire only when the operand is not SQL NULL and the operator yields true. -/
def sqlHasB : Option Json → String → Bool
  | none, _ => false
  | some j, key => jbHas j key

/-- `x != lit` as a guard condition on a nullable text: in SQL three-valued
logic `NULL != lit` is unknown, so the guard does not fire. -/
def sqlNeq : Option String → String → Bool
  | none, _ => false
  | some s, lit => s ≠ lit

/-- `jsonb_set(target, '{key}', newVal)` with a single-key path.
`jsonb_set` is STRICT: any SQL NULL argument gives SQL NULL.  On an array a
non-integer path element raises, on a scalar setting a path raises. -/
def jbSet (target : Option Json) (key : String) (newVal : Option Json) :
    Except PgError (Option Json) :=
  match target, newVal with
  | none, _ => .ok none
  | _, none => .ok none
  | some (.obj fs), some v => .ok (some (.obj (setField fs key v)))
  | some (.arr _), some _ => .error .pathElementNotInteger
  | some _, some _ => .error .cannotSetPathInScalar

/-- The jsonb `- text` operator: delete a key from an object or all equal
string elements from an array; raises on a scalar; strict on SQL NULL. -/
def jbMinus (target : Option Json) (key : String) :
    Except PgError (Option Json) :=
  match target with
  | none => .ok none
  | some (.obj fs) => .ok (some (.obj (delField fs key)))
  | some (.arr xs) => .ok (some (.arr (xs.filter (fun e => !(beqJson e (Json.str key))))))
  | some _ => .error .cannotDeleteFromScalar

/-- `regexp_replace(url, '^https?://', '')`: strip one leading scheme
prefix, at list-of-characters level. -/
def stripSchemeL : List Char → List Char
  | 'h' :: 't' :: 't' :: 'p' :: 's' :: ':' :: '/' :: '/' :: rest => rest
  | 'h' :: 't' :: 't' :: 'p' :: ':' :: '/' :: '/' :: rest => rest
  | l => l

/-- `regexp_replace(url, '^https?://', '')` on strings. -/
def stripScheme (u : String) : String := ⟨stripSchemeL u.data⟩

/-- `identifier LIKE '%:%'`. -/
def likeColon (s : String) : Bool := s.data.contains ':'

/-- Does `pat` occur at the front of the list? -/
def startsWithL : List Char → List Char → Bool
  | [], _ => true
  | _ :: _, [] => false
  | p :: ps, x :: xs => p == x && startsWithL ps xs

/-- Does `pat` occur contiguously anywhere in the list? -/
def hasInfixL (pat : List Char) : List Char → Bool
  | [] => pat.isEmpty
  | x :: xs => startsWithL pat (x :: xs) || hasInfixL pat xs

/-- `identifier LIKE '%@sha256:%'`. -/
def likeSha256 (s : String) : Bool := hasInfixL "@sha256:".data s.data

/-- The canonical-format test of the OCI skip guard applied to the nullable
`identifier` text: `identifier LIKE '%:%' OR identifier LIKE '%@sha256:%'`
is unknown on SQL NULL and then does not fire. -/
def sqlLikeCanonical : Option String → Bool
  | none => false
  | some s => likeColon s || likeSha256 s

/-- The tag chosen for the canonical reference: the legacy `version` when it
is non-NULL and non-empty, `latest` otherwise (`IF version_str IS NOT NULL
AND version_str != '' THEN ... ELSE ... ':latest'`). -/
def ociTag : Option String → String
  | some v => if v ≠ "" then v else "latest"
  | none => "latest"

/-- `registry_host`: the scheme-stripped `registryBaseUrl`, defaulting to
`docker.io` when it is SQL NULL. -/
def ociRegistryHost : Option String → String
  | some u => stripScheme u
  | none => "docker.io"

/-- `convert_oci_package_to_canonical(pkg jsonb)` from
`apply_migration_010_to_prod.sql`.

The early `RETURN` guards fire only when their SQL condition is TRUE
(three-valued logic).  `canonical_ref` is built with the SQL `||` operator,
which propagates NULL from `identifier`; `registry_host` and the tag are
never NULL on the path that reaches them. -/
def convert_oci_package_to_canonical (pkg : Option Json) :
    Except PgError (Option Json) :=
  -- IF pkg->>'registryType' != 'oci' THEN RETURN result
  if sqlNeq (sqlText pkg "registryType") "oci" then .ok pkg
  -- IF registry_url IS NULL AND (identifier LIKE '%:%' OR identifier LIKE '%@sha256:%')
  else if (sqlText pkg "registryBaseUrl").isNone
      && sqlLikeCanonical (sqlText pkg "identifier") then .ok pkg
  else
    let canonical_ref : Option String :=
      (sqlText pkg "identifier").map fun id =>
        ociRegistryHost (sqlText pkg "registryBaseUrl") ++ "/" ++ id ++ ":"
          ++ ociTag (sqlText pkg "version")
    match jbSet pkg "identifier" (canonical_ref.map Json.str) with
    | .error e => .error e
    | .ok r1 =>
      match jbMinus r1 "registryBaseUrl" with
      | .error e => .error e
      | .ok r2 => jbMinus r2 "version"

/-- `convert_mcpb_package_to_canonical(pkg jsonb)` from the migration
script. -/
def convert_mcpb_package_to_canonical (pkg : Option Json) :
    Except PgError (Option Json) :=
  -- IF pkg->>'registryType' != 'mcpb' THEN RETURN result
  if sqlNeq (sqlText pkg "registryType") "mcpb" then .ok pkg
  else
    match jbMinus pkg "version" with
    | .error e => .error e
    | .ok r1 => jbMinus r1 "registryBaseUrl"

/-- `remove_forbidden_fields(pkg jsonb)` from the migration script.  The
guard `registry_type != 'mcpb' AND result ? 'fileSha256'` fires only when
both conjuncts are TRUE; a NULL `registry_type` makes it unknown. -/
def remove_forbidden_fields (pkg : Option Json) :
    Except PgError (Option Json) :=
  if sqlNeq (sqlText pkg "registryType") "mcpb" && sqlHasB pkg "fileSha256" then
    jbMinus pkg "fileSha256"
  else .ok pkg

/-- The default transport value `'{"type": "stdio"}'::jsonb`. -/
def stdioTransport : Json := .obj [("type", .str "stdio")]

/-- `ensure_transport_field(pkg jsonb)` from the migration script (the
`registry_type` and `runtime_hint` locals are read but unused there). -/
def ensure_transport_field (pkg : Option Json) :
    Except PgError (Option Json) :=
  if sqlHasB pkg "transport" then .ok pkg
  else jbSet pkg "transport" (some stdioTransport)

/-- The per-element body of the `FOR pkg IN SELECT * FROM
jsonb_array_elements(packages)` loop of `convert_packages_array`: the four
stages in their fixed order. -/
def canonicalize_element (e : Json) : Except PgError (Option Json) :=
  match convert_oci_package_to_canonical (some e) with
  | .error err => .error err
  | .ok p1 =>
    match convert_mcpb_package_to_canonical p1 with
    | .error err => .error err
    | .ok p2 =>
      match remove_forbidden_fields p2 with
      | .error err => .error err
      | .ok p3 => ensure_transport_field p3

/-- `jsonb_build_array(pkg)` turns a SQL NULL loop variable into a JSON
null element. -/
def jsonb_build_elem : Option Json → Json
  | none => .null
  | some j => j

/-- The `FOR pkg IN SELECT * FROM jsonb_array_elements(packages)` loop of
`convert_packages_array`: each element is pushed through the pipeline and
appended (`result || jsonb_build_array(pkg)`); a raised error aborts the
whole loop. -/
def convertLoop : List Json → Except PgError (List Json)
  | [] => .ok []
  | e :: es =>
    match canonicalize_element e with
    | .error err => .error err
    | .ok r =>
      match convertLoop es with
      | .error err => .error err
      | .ok ys => .ok (jsonb_build_elem r :: ys)

/-- `convert_packages_array(packages jsonb)` from the migration script:
NULL and empty arrays are returned unchanged, `jsonb_array_length` raises
on a non-array, and each element is pushed through the four-stage
pipeline. -/
def convert_packages_array (packages : Option Json) :
    Except PgError (Option Json) :=
  match packages with
  | none => .ok none
  | some (.arr xs) =>
    if xs.length = 0 then .ok (some (.arr xs))
    else
      match convertLoop xs with
      | .error err => .error err
      | .ok ys => .ok (some (.arr ys))
  | some _ => .error .notAnArray

/-- One row of the `servers` table: the migration touches only
`server_name` and the jsonb `value` column (nullable). -/
structure ServerRow where
  server_name : String
  value : Option Json
  deriving Repr

/-- The WHERE clause of the migration's UPDATE:
`value ? 'packages' AND value->'packages' IS NOT NULL AND
jsonb_array_length(value->'packages') > 0`, evaluated left to right with
short-circuiting; `jsonb_array_length` raises on a non-array (including a
JSON null `packages` value). -/
def rowEligible (value : Option Json) : Except PgError Bool :=
  match value with
  | none => .ok false
  | some v =>
    if !(jbHas v "packages") then .ok false
    else
      match jGet v "packages" with
      | none => .ok false
      | some (.arr xs) => .ok (xs.length > 0)
      | some _ => .error .notAnArray

/-- The SET clause of the migration's UPDATE applied to one eligible row:
`value = jsonb_set(value, '{packages}', convert_packages_array(value->'packages'))`. -/
def updateRow (r : ServerRow) : Except PgError ServerRow :=
  match rowEligible r.value with
  | .error e => .error e
  | .ok false => .ok r
  | .ok true =>
    match convert_packages_array ((r.value.bind (fun v => jGet v "packages"))) with
    | .error e => .error e
    | .ok newPackages =>
      match jbSet r.value "packages" newPackages with
      | .error e => .error e
      | .ok newValue => .ok { r with value := newValue }

/-- The full-corpus UPDATE statement: every row is examined, eligible rows
are rewritten; a raised error aborts the whole statement. -/
def migrationUpdate : List ServerRow → Except PgError (List ServerRow)
  | [] => .ok []
  | r :: rs =>
    match updateRow r with
    | .error e => .error e
    | .ok r' =>
      match migrationUpdate rs with
      | .error e => .error e
      | .ok rs' => .ok (r' :: rs')

/-- Does one package carry a legacy field, in the sense of the script's
reporting queries: `pkg ? 'registryBaseUrl' OR pkg ? 'version'`. -/
def pkgHasLegacyField (p : Json) : Bool :=
  jbHas p "registryBaseUrl" || jbHas p "version"

/-- One row of the script's `remaining_count` reporting query: rows with a
non-empty packages array one of whose elements carries a legacy field. -/
def rowHasLegacy (value : Option Json) : Except PgError Bool :=
  match value with
  | none => .ok false
  | some v =>
    if !(jbHas v "packages") then .ok false
    else
      match jGet v "packages" with
      | none => .ok false
      | some (.arr xs) =>
        .ok (decide (xs.length > 0) && xs.any pkgHasLegacyField)
      | some _ => .error .notAnArray

/-- The script's before/after legacy count:
`SELECT COUNT(*) ... WHERE ... EXISTS (... pkg ? 'registryBaseUrl' OR pkg ? 'version')`. -/
def countLegacy : List ServerRow → Except PgError Nat
  | [] => .ok 0
  | r :: rs =>
    match rowHasLegacy r.value with
    | .error e => .error e
    | .ok b =>
      match countLegacy rs with
      | .error e => .error e
      | .ok n => .ok (if b then n + 1 else n)

/-! ### The transaction machine

The live script runs `BEGIN; ...; UPDATE ...; COMMIT;`, the dry-run script
runs `BEGIN; ...; UPDATE ...; ROLLBACK;`.  The machine tracks the committed
corpus, the in-transaction working corpus, and whether a statement has
raised (a raised error poisons the transaction, so a subsequent COMMIT
persists nothing). -/

/-- Transaction state: `committed` is the durable corpus, `current` the
in-transaction view, `failed` records a raised statement. -/
structure TxState where
  committed : List ServerRow
  current : List ServerRow
  failed : Bool
  deriving Repr

/-- The statements of the two scripts that matter for persistence. -/
inductive Stmt where
  | migrate : Stmt
  | commitTx : Stmt
  | rollbackTx : Stmt
  deriving DecidableEq, Repr

/-- Execute one statement. -/
def stepStmt (s : TxState) : Stmt → TxState
  | .migrate =>
    if s.failed then s
    else
      match migrationUpdate s.current with
      | .ok db' => { s with current := db' }
      | .error _ => { s with failed := true }
  | .commitTx =>
    if s.failed then { s with current := s.committed, failed := false }
    else { s with committed := s.current }
  | .rollbackTx => { s with current := s.committed, failed := false }

/-- Run a script from a freshly opened transaction on corpus `db`. -/
def runScript (db : List ServerRow) (stmts : List Stmt) : TxState :=
  stmts.foldl stepStmt ⟨db, db, false⟩

/-- The persistence-relevant statements of the live script
(`apply_migration_010_to_prod.sql`, COMMIT variant). -/
def liveScript : List Stmt := [.migrate, .commitTx]

/-- The persistence-relevant statements of the dry-run script (ROLLBACK
variant). -/
def dryRunScript : List Stmt := [.migrate, .rollbackTx]

/-! ### The OCI registry validator

`ValidateOCI` from `internal/validators/registries/oci.go`.  The Go struct
`model.Package` uses Go strings, whose zero value `""` stands for an absent
field.  Two external calls are modeled as oracle parameters: the outcome of
`name.ParseReference` (a library parse of the identifier) and the combined
outcome of `remote.Image` / `img.ConfigFile` (the network fetch of the
image and its config labels). -/

/-- The fields of `model.Package` read by `ValidateOCI`. -/
structure Package where
  registryType : String
  identifier : String
  registryBaseURL : String
  version : String
  fileSHA256 : String
  deriving DecidableEq, Repr

/-- Outcome of the remote fetch (`remote.Image` followed by
`img.ConfigFile`): a `transport.Error` with its HTTP status, a non-transport
fetch error, a config read error, or the config's label map (`none` models
a nil `Labels` map). -/
inductive FetchOutcome where
  | transportError : Nat → FetchOutcome
  | otherFetchError : FetchOutcome
  | configFileError : FetchOutcome
  | config : Option (List (String × String)) → FetchOutcome
  deriving DecidableEq, Repr

/-- The structured outcomes of `ValidateOCI`, one per `return` site of the
Go function.  `errMissingLabel` carries the identifier and the server name
that the remediation message (`Add this to your Dockerfile: LABEL
io.modelcontextprotocol.server.name="..."`) names; `errOwnershipMismatch`
carries the expected and actual label values that its message names. -/
inductive OciResult where
  | errMissingIdentifier : OciResult
  | errRegistryBaseUrlPresent : OciResult
  | errVersionPresent : OciResult
  | errFileSha256Present : OciResult
  | errInvalidReference : OciResult
  | errNotFoundOrNotAccessible : Nat → OciResult
  | errFetchFailed : OciResult
  | errConfigFailed : OciResult
  | errMissingLabel : String → String → OciResult
  | errOwnershipMismatch : String → String → OciResult
  | ok : OciResult
  deriving DecidableEq, Repr

/-- The ownership label key read from the image config. -/
def mcpServerNameLabel : String := "io.modelcontextprotocol.server.name"

/-- Lookup in the config's label map. -/
def lookupLabel : List (String × String) → String → Option String
  | [], _ => none
  | (k, v) :: ls, key => if k = key then some v else lookupLabel ls key

/-- `ValidateOCI(ctx, pkg, serverName)`: the format gate, the reference
parse, the fetch-failure classification (429 soft pass, 404/401 hard
not-found, otherwise a wrapped fetch error), and the ownership check
against the `io.modelcontextprotocol.server.name` label. -/
def ValidateOCI (pkg : Package) (serverName : String) (parseOk : Bool)
    (fetch : FetchOutcome) : OciResult :=
  if pkg.identifier = "" then .errMissingIdentifier
  else if pkg.registryBaseURL ≠ "" then .errRegistryBaseUrlPresent
  else if pkg.version ≠ "" then .errVersionPresent
  else if pkg.fileSHA256 ≠ "" then .errFileSha256Present
  else if !parseOk then .errInvalidReference
  else
    match fetch with
    | .transportError status =>
      if status = 429 then .ok
      else if status = 404 ∨ status = 401 then .errNotFoundOrNotAccessible status
      else .errFetchFailed
    | .otherFetchError => .errFetchFailed
    | .configFileError => .errConfigFailed
    | .config labels =>
      match labels with
      | none => .errMissingLabel pkg.identifier serverName
      | some ls =>
        match lookupLabel ls mcpServerNameLabel with
        | none => .errMissingLabel pkg.identifier serverName
        | some mcpName =>
          if mcpName = serverName then .ok
          else .errOwnershipMismatch serverName mcpName

/-! ### The transport URL pattern

Modelled from the spec: the JSON-Schema document
`docs/reference/server-json/server.schema.json` is not part of the source
tree; only its test (`internal/validators/schema_pattern_test.go`) is.  Per
the spec (and the test's doc comment) the schema validates the `url` of the
`streamable-http` and `sse` transports against the Go RE2 pattern
`^https?://[^\s]+$`.  RE2's `\s` is the ASCII class
`[\t\n\f\r ]`, and an unanchored-`$` matches only at the end of the
text. -/

/-- The characters of RE2's `\s` class. -/
def isRe2Space (c : Char) : Bool :=
  c = ' ' || c = '\t' || c = '\n' || c = '\x0c' || c = '\r'

/-- Modelled from the spec: the schema's transport-URL pattern
`^https?://[^\s]+$` as a recognizer — an `http://` or `https://` prefix
followed by one or more non-space characters reaching the end of the
string. -/
def urlPatternAccepts (s : String) : Bool :=
  let tail7 := s.data.drop 7
  let tail8 := s.data.drop 8
  (decide (s.data.take 7 = "http://".data) && !tail7.isEmpty
      && tail7.all (fun c => !isRe2Space c))
    || (decide (s.data.take 8 = "https://".data) && !tail8.isEmpty
      && tail8.all (fun c => !isRe2Space c))

/-! ### Abbreviations for the jsonb field texts of an object package -/

/-- `pkg->>'registryType'` of an object package. -/
def rtTextF (fs : List (String × Json)) : Option String :=
  (lookupField fs "registryType").bind jTextVal

/-- `pkg->>'registryBaseUrl'` of an object package. -/
def rbTextF (fs : List (String × Json)) : Option String :=
  (lookupField fs "registryBaseUrl").bind jTextVal

/-- `pkg->>'identifier'` of an object package. -/
def idTextF (fs : List (String × Json)) : Option String :=
  (lookupField fs "identifier").bind jTextVal

/-- `pkg->>'version'` of an object package. -/
def verTextF (fs : List (String × Json)) : Option String :=
  (lookupField fs "version").bind jTextVal

/-- The `canonical_ref` built by `convert_oci_package_to_canonical` for an
object package whose identifier text is `id`. -/
def mkCanonicalRef (fs : List (String × Json)) (id : String) : String :=
  ociRegistryHost (rbTextF fs) ++ "/" ++ id ++ ":" ++ ociTag (verTextF fs)

/-- The object rewritten by the OCI stage: identifier replaced by the
canonical reference, `registryBaseUrl` and `version` removed. -/
def ociRewritten (fs : List (String × Json)) (id : String) :
    List (String × Json) :=
  delField (delField (setField fs "identifier" (.str (mkCanonicalRef fs id)))
    "registryBaseUrl") "version"

/-- The shape every object that leaves the pipeline has; it is exactly
what makes a second pipeline run the identity (SQL three-valued logic
included):

* a `transport` key is present;
* a package whose `registryType` text is `oci` has a NULL
  `registryBaseUrl` text and a canonical-looking identifier (so the OCI
  stage skips it), and no `fileSha256` key;
* a package whose `registryType` text is `mcpb` has no `version` and no
  `registryBaseUrl` key;
* a package with any other non-NULL `registryType` text has no
  `fileSha256` key;
* a package with NULL `registryType` text (the stage guards cannot fire
  on it) has a NULL `registryBaseUrl` text, a canonical-looking
  identifier, and no `version` or `registryBaseUrl` key. -/
def CanonicalObj (gs : List (String × Json)) : Prop :=
  (lookupField gs "transport").isSome = true
  ∧ (∀ s, rtTextF gs = some s → s ≠ "mcpb" → lookupField gs "fileSha256" = none)
  ∧ (rtTextF gs = some "oci" →
      rbTextF gs = none ∧ sqlLikeCanonical (idTextF gs) = true)
  ∧ (rtTextF gs = some "mcpb" →
      lookupField gs "version" = none ∧ lookupField gs "registryBaseUrl" = none)
  ∧ (rtTextF gs = none →
      rbTextF gs = none ∧ sqlLikeCanonical (idTextF gs) = true
      ∧ lookupField gs "version" = none
      ∧ lookupField gs "registryBaseUrl" = none)

/-- The per-element relation between an input package and its pipeline
output used by the corrected array-level invariant: the output is JSON
null or an object; an object output has a transport, `oci` packages carry
no `registryBaseUrl` text and no `fileSha256`, `mcpb` packages carry no
`version`/`registryBaseUrl`, any package with a present non-`mcpb`
`registryType` text carries no `fileSha256`, and a pre-existing transport
is never overwritten. -/
def AmendedPkgInvariant (x y : Json) : Prop :=
  (y = .null ∨ ∃ gs, y = .obj gs)
  ∧ ∀ gs, y = .obj gs →
      (lookupField gs "transport").isSome = true
      ∧ (rtTextF gs = some "oci" →
          rbTextF gs = none ∧ lookupField gs "fileSha256" = none)
      ∧ (rtTextF gs = some "mcpb" →
          lookupField gs "version" = none ∧ lookupField gs "registryBaseUrl" = none)
      ∧ (∀ s, rtTextF gs = some s → s ≠ "mcpb" → lookupField gs "fileSha256" = none)
      ∧ (∀ fs t, x = .obj fs → lookupField fs "transport" = some t →
          lookupField gs "transport" = some t)

/-! ### Concrete instances used by individual claims -/

/-- The spec's legacy OCI round-trip example package. -/
def examplePkgC2 : List (String × Json) :=
  [("registryType", .str "oci"), ("registryBaseUrl", .str "https://docker.io"),
   ("identifier", .str "ns/img"), ("version", .str "1.2.3")]

/-- A one-row corpus whose OCI package has a canonical-looking identifier
and a legacy `version` field. -/
def c1dbBefore : List ServerRow :=
  [⟨"s1", some (.obj [("packages", .arr [.obj
    [("registryType", .str "oci"), ("identifier", .str "ghcr.io/a/b:1.0"),
     ("version", .str "2.0")]])])⟩]

/-- The corpus `c1dbBefore` after the migration UPDATE. -/
def c1dbAfter : List ServerRow :=
  [⟨"s1", some (.obj [("packages", .arr [.obj
    [("registryType", .str "oci"), ("identifier", .str "ghcr.io/a/b:1.0"),
     ("version", .str "2.0"),
     ("transport", .obj [("type", .str "stdio")])]])])⟩]

/-- An OCI package that the skip guard treats as canonical although it
still carries a legacy `version` field. -/
def c3pkgVersionKept : Json :=
  .obj [("registryType", .str "oci"), ("identifier", .str "ghcr.io/a/b:1.0"),
    ("version", .str "2.0")]

/-- A package without a `registryType` field carrying a `fileSha256`. -/
def c3pkgTypeless : Json :=
  .obj [("identifier", .str "x"), ("fileSha256", .str "abc")]

/-- An OCI package whose `registryBaseUrl` key holds JSON null. -/
def c3pkgNullRb : Json :=
  .obj [("registryType", .str "oci"), ("registryBaseUrl", .null),
    ("identifier", .str "a:b")]

/-- Pipeline output of `c3pkgVersionKept`. -/
def c3outVersionKept : Json :=
  .obj [("registryType", .str "oci"), ("identifier", .str "ghcr.io/a/b:1.0"),
    ("version", .str "2.0"), ("transport", .obj [("type", .str "stdio")])]

/-- Pipeline output of `c3pkgTypeless`. -/
def c3outTypeless : Json :=
  .obj [("identifier", .str "docker.io/x:latest"), ("fileSha256", .str "abc"),
    ("transport", .obj [("type", .str "stdio")])]

/-- Pipeline output of `c3pkgNullRb`. -/
def c3outNullRb : Json :=
  .obj [("registryType", .str "oci"), ("registryBaseUrl", .null),
    ("identifier", .str "a:b"), ("transport", .obj [("type", .str "stdio")])]

/-- A canonical OCI package whose identifier resolves to the `quay.io`
registry host. -/
def quayPackage : Package :=
  ⟨"oci", "quay.io/test/image:latest", "", "", ""⟩

/-- An object package with no `registryType`, a legacy `registryBaseUrl`
and `version`, and a `fileSha256`. -/
def typelessLegacyPkg : List (String × Json) :=
  [("registryBaseUrl", .str "https://h.io"), ("identifier", .str "ns/img"),
   ("version", .str "1.0"), ("fileSha256", .str "abc")]

/-- What the pipeline guarantees for one object element: the element is
erased to SQL NULL, or it becomes a `CanonicalObj` object whose transport,
if present on the input, is untouched. -/
def PipelinePost (fs : List (String × Json)) (r : Option Json) : Prop :=
  r = none
  ∨ ∃ gs, r = some (.obj gs) ∧ CanonicalObj gs
      ∧ (∀ t, lookupField fs "transport" = some t →
          lookupField gs "transport" = some t)

/-! ## Lemmas about the object field operations -/

theorem lookupField_setField_self (fs : List (String × Json)) (k : String)
    (v : Json) : lookupField (setField fs k v) k = some v := by
  induction fs with
  | nil => simp [setField, lookupField]
  | cons a t ih =>
    obtain ⟨ka, va⟩ := a
    by_cases h : ka = k
    · simp [setField, h, lookupField]
    · simp [setField, h, lookupField, ih]

theorem lookupField_setField_ne (fs : List (String × Json)) (k k' : String)
    (v : Json) (h : k' ≠ k) :
    lookupField (setField fs k v) k' = lookupField fs k' := by
  have h' : ¬(k = k') := fun hh => h hh.symm
  induction fs with
  | nil => simp [setField, lookupField, h']
  | cons a t ih =>
    obtain ⟨ka, va⟩ := a
    by_cases hk : ka = k
    · subst hk
      simp [setField, lookupField, h']
    · simp [setField, hk, lookupField, ih]

theorem lookupField_delField_self (fs : List (String × Json)) (k : String) :
    lookupField (delField fs k) k = none := by
  induction fs with
  | nil => simp [delField, lookupField]
  | cons a t ih =>
    obtain ⟨ka, va⟩ := a
    by_cases h : ka = k
    · simp [delField, h, ih]
    · simp [delField, h, lookupField, ih]

theorem lookupField_delField_ne (fs : List (String × Json)) (k k' : String)
    (h : k' ≠ k) :
    lookupField (delField fs k) k' = lookupField fs k' := by
  have h' : ¬(k = k') := fun hh => h hh.symm
  induction fs with
  | nil => simp [delField]
  | cons a t ih =>
    obtain ⟨ka, va⟩ := a
    by_cases hk : ka = k
    · subst hk
      simp [delField, lookupField, h', ih]
    · simp [delField, hk, lookupField, ih]

theorem delField_eq_self (fs : List (String × Json)) (k : String)
    (h : lookupField fs k = none) : delField fs k = fs := by
  induction fs with
  | nil => simp [delField]
  | cons a t ih =>
    obtain ⟨ka, va⟩ := a
    by_cases hk : ka = k
    · simp [lookupField, hk] at h
    · simp [lookupField, hk] at h
      simp [delField, hk, ih h]

theorem setField_setField_same (fs : List (String × Json)) (k : String)
    (v w : Json) : setField (setField fs k v) k w = setField fs k w := by
  induction fs with
  | nil => simp [setField]
  | cons a t ih =>
    obtain ⟨ka, va⟩ := a
    by_cases hk : ka = k
    · simp [setField, hk]
    · simp [setField, hk, ih]

/-! ## Stage lemmas: each plpgsql helper on each shape of input -/

theorem sqlText_obj (fs : List (String × Json)) (k : String) :
    sqlText (some (.obj fs)) k = (lookupField fs k).bind jTextVal := rfl

theorem oci_stage_guard (pkg : Option Json)
    (h : sqlNeq (sqlText pkg "registryType") "oci" = true) :
    convert_oci_package_to_canonical pkg = .ok pkg := by
  unfold convert_oci_package_to_canonical
  rw [h]
  rfl

theorem oci_stage_skip (pkg : Option Json)
    (h1 : sqlNeq (sqlText pkg "registryType") "oci" = false)
    (h2 : ((sqlText pkg "registryBaseUrl").isNone
      && sqlLikeCanonical (sqlText pkg "identifier")) = true) :
    convert_oci_package_to_canonical pkg = .ok pkg := by
  unfold convert_oci_package_to_canonical
  rw [h1, h2]
  rfl

theorem oci_stage_null_id (pkg : Option Json)
    (h1 : sqlNeq (sqlText pkg "registryType") "oci" = false)
    (h2 : ((sqlText pkg "registryBaseUrl").isNone
      && sqlLikeCanonical (sqlText pkg "identifier")) = false)
    (h3 : sqlText pkg "identifier" = none) :
    convert_oci_package_to_canonical pkg = .ok none := by
  unfold convert_oci_package_to_canonical
  rw [h1, h2, h3]
  match pkg with
  | none => rfl
  | some v => cases v <;> rfl

theorem oci_stage_rewrite (fs : List (String × Json)) (id : String)
    (h1 : sqlNeq (sqlText (some (.obj fs)) "registryType") "oci" = false)
    (h2 : ((sqlText (some (.obj fs)) "registryBaseUrl").isNone
      && sqlLikeCanonical (sqlText (some (.obj fs)) "identifier")) = false)
    (h3 : sqlText (some (.obj fs)) "identifier" = some id) :
    convert_oci_package_to_canonical (some (.obj fs))
      = .ok (some (.obj (ociRewritten fs id))) := by
  unfold convert_oci_package_to_canonical
  rw [h1, h2, h3]
  rfl

theorem mcpb_stage_guard (pkg : Option Json)
    (h : sqlNeq (sqlText pkg "registryType") "mcpb" = true) :
    convert_mcpb_package_to_canonical pkg = .ok pkg := by
  unfold convert_mcpb_package_to_canonical
  rw [h]
  rfl

theorem mcpb_stage_none :
    convert_mcpb_package_to_canonical none = .ok none := rfl

theorem mcpb_stage_rewrite (fs : List (String × Json))
    (h : sqlNeq (sqlText (some (.obj fs)) "registryType") "mcpb" = false) :
    convert_mcpb_package_to_canonical (some (.obj fs))
      = .ok (some (.obj (delField (delField fs "version") "registryBaseUrl"))) := by
  unfold convert_mcpb_package_to_canonical
  rw [h]
  rfl

theorem forbidden_stage_skip (pkg : Option Json)
    (h : (sqlNeq (sqlText pkg "registryType") "mcpb"
      && sqlHasB pkg "fileSha256") = false) :
    remove_forbidden_fields pkg = .ok pkg := by
  unfold remove_forbidden_fields
  rw [h]
  rfl

theorem forbidden_stage_strip (fs : List (String × Json))
    (h : (sqlNeq (sqlText (some (.obj fs)) "registryType") "mcpb"
      && sqlHasB (some (.obj fs)) "fileSha256") = true) :
    remove_forbidden_fields (some (.obj fs))
      = .ok (some (.obj (delField fs "fileSha256"))) := by
  unfold remove_forbidden_fields
  rw [h]
  rfl

theorem transport_stage_present (pkg : Option Json)
    (h : sqlHasB pkg "transport" = true) :
    ensure_transport_field pkg = .ok pkg := by
  unfold ensure_transport_field
  rw [h]
  rfl

theorem transport_stage_none :
    ensure_transport_field none = .ok none := rfl

theorem transport_stage_add (fs : List (String × Json))
    (h : sqlHasB (some (.obj fs)) "transport" = false) :
    ensure_transport_field (some (.obj fs))
      = .ok (some (.obj (setField fs "transport" stdioTransport))) := by
  unfold ensure_transport_field
  rw [h]
  rfl

/-! ## Collapse of non-object elements -/

theorem canon_elem_null : canonicalize_element .null = .ok none := rfl

theorem canon_elem_bool (b : Bool) :
    canonicalize_element (.bool b) = .ok none := rfl

theorem canon_elem_num (n : Int) :
    canonicalize_element (.num n) = .ok none := rfl

theorem canon_elem_str (s : String) :
    canonicalize_element (.str s) = .ok none := rfl

theorem canon_elem_arr (xs : List Json) :
    canonicalize_element (.arr xs) = .ok none := rfl

/-! ## Facts about the SQL guards -/

theorem rtTextF_def (fs : List (String × Json)) :
    sqlText (some (.obj fs)) "registryType" = rtTextF fs := rfl

theorem rbTextF_def (fs : List (String × Json)) :
    sqlText (some (.obj fs)) "registryBaseUrl" = rbTextF fs := rfl

theorem idTextF_def (fs : List (String × Json)) :
    sqlText (some (.obj fs)) "identifier" = idTextF fs := rfl

theorem verTextF_def (fs : List (String × Json)) :
    sqlText (some (.obj fs)) "version" = verTextF fs := rfl

theorem sqlHasB_obj (fs : List (String × Json)) (k : String) :
    sqlHasB (some (.obj fs)) k = (lookupField fs k).isSome := rfl

theorem sqlNeq_true_iff (o : Option String) (lit : String) :
    sqlNeq o lit = true ↔ ∃ s, o = some s ∧ s ≠ lit := by
  cases o <;> simp [sqlNeq]

theorem sqlNeq_false_iff (o : Option String) (lit : String) :
    sqlNeq o lit = false ↔ o = none ∨ o = some lit := by
  cases o <;> simp [sqlNeq]

theorem sqlNeq_some_of_ne (s lit : String) (h : s ≠ lit) :
    sqlNeq (some s) lit = true := by simp [sqlNeq, h]

theorem sqlNeq_some_self (lit : String) :
    sqlNeq (some lit) lit = false := by simp [sqlNeq]

theorem skip_guard_true_iff (rb idt : Option String) :
    (rb.isNone && sqlLikeCanonical idt) = true
      ↔ rb = none ∧ sqlLikeCanonical idt = true := by
  cases rb <;> simp

/-- The canonical reference always contains a colon, hence always looks
canonical to the skip guard of a later run. -/
theorem mkCanonicalRef_canonical (fs : List (String × Json)) (id : String) :
    sqlLikeCanonical (some (mkCanonicalRef fs id)) = true := by
  have hdata : (mkCanonicalRef fs id).data
      = ((ociRegistryHost (rbTextF fs) ++ "/" ++ id).data ++ ":".data)
        ++ (ociTag (verTextF fs)).data := by
    unfold mkCanonicalRef
    rw [String.data_append, String.data_append]
  have hmem : ':' ∈ (mkCanonicalRef fs id).data := by
    rw [hdata]
    exact List.mem_append_left _ (List.mem_append_right _ (by decide))
  simp only [sqlLikeCanonical, likeColon, Bool.or_eq_true]
  exact Or.inl (by simpa using hmem)

/-! ## The pipeline's fixed points -/

/-- Composition of the four stage results into the pipeline result. -/
theorem canon_elem_stages (e : Json) (p1 p2 p3 r : Option Json)
    (h1 : convert_oci_package_to_canonical (some e) = .ok p1)
    (h2 : convert_mcpb_package_to_canonical p1 = .ok p2)
    (h3 : remove_forbidden_fields p2 = .ok p3)
    (h4 : ensure_transport_field p3 = .ok r) :
    canonicalize_element e = .ok r := by
  unfold canonicalize_element
  simp only [h1, h2, h3, h4]

/-- The transport stage on an object: some object comes out whose
`transport` is present, whose other keys are untouched, and whose
pre-existing transport value is untouched. -/
theorem transport_stage_post (base : List (String × Json)) :
    ∃ gs, ensure_transport_field (some (.obj base)) = .ok (some (.obj gs))
      ∧ (lookupField gs "transport").isSome = true
      ∧ (∀ k, k ≠ "transport" → lookupField gs k = lookupField base k)
      ∧ (∀ t, lookupField base "transport" = some t →
          lookupField gs "transport" = some t) := by
  by_cases ht : sqlHasB (some (.obj base)) "transport" = true
  · refine ⟨base, transport_stage_present _ ht, ?_, fun _ _ => rfl, fun _ h => h⟩
    rw [sqlHasB_obj] at ht
    exact ht
  · have ht' : sqlHasB (some (.obj base)) "transport" = false :=
      Bool.eq_false_iff.mpr ht
    refine ⟨setField base "transport" stdioTransport,
      transport_stage_add _ ht', ?_, ?_, ?_⟩
    · rw [lookupField_setField_self]; rfl
    · exact fun k hk => lookupField_setField_ne _ _ _ _ hk
    · intro t hsome
      rw [sqlHasB_obj, hsome] at ht'
      simp at ht'

/-- The forbidden-field stage on an object whose `registryType` text is a
present non-`mcpb` value: some object comes out with no `fileSha256` key
and all other keys untouched. -/
theorem forbidden_stage_post (fs : List (String × Json)) (s : String)
    (hrt : rtTextF fs = some s) (hs : s ≠ "mcpb") :
    ∃ base, remove_forbidden_fields (some (.obj fs)) = .ok (some (.obj base))
      ∧ lookupField base "fileSha256" = none
      ∧ (∀ k, k ≠ "fileSha256" → lookupField base k = lookupField fs k) := by
  by_cases hh : sqlHasB (some (.obj fs)) "fileSha256" = true
  · refine ⟨delField fs "fileSha256",
      forbidden_stage_strip _ ?_, lookupField_delField_self _ _,
      fun k hk => lookupField_delField_ne _ _ _ hk⟩
    rw [rtTextF_def, hrt, sqlNeq_some_of_ne _ _ hs, hh]
    rfl
  · have hh' : sqlHasB (some (.obj fs)) "fileSha256" = false :=
      Bool.eq_false_iff.mpr hh
    refine ⟨fs, forbidden_stage_skip _ (by rw [hh']; simp), ?_,
      fun _ _ => rfl⟩
    rw [sqlHasB_obj] at hh'
    exact Option.not_isSome_iff_eq_none.mp (by simp [hh'])

/-- A `CanonicalObj` object is a fixed point of the pipeline: every stage
of a further run leaves it untouched. -/
theorem canonicalObj_fixed (gs : List (String × Json)) (h : CanonicalObj gs) :
    canonicalize_element (.obj gs) = .ok (some (.obj gs)) := by
  obtain ⟨htr, hsha, hoci, hmcpb, hnone⟩ := h
  have htr' : ensure_transport_field (some (.obj gs)) = .ok (some (.obj gs)) :=
    transport_stage_present _ (by rw [sqlHasB_obj]; exact htr)
  rcases hrt : rtTextF gs with _ | s
  · -- registryType text is SQL NULL: neither type guard fires, the OCI
    -- stage skips, the MCPB deletions are no-ops on the absent keys.
    obtain ⟨hrb, hlike, hver, hrbk⟩ := hnone hrt
    refine canon_elem_stages _ _ _ _ _
      (oci_stage_skip _ (by rw [rtTextF_def, hrt]; rfl)
        (by rw [rbTextF_def, idTextF_def, hrb, hlike]; rfl))
      ?_
      (forbidden_stage_skip _ (by rw [rtTextF_def, hrt]; rfl))
      htr'
    rw [mcpb_stage_rewrite _ (by rw [rtTextF_def, hrt]; rfl),
      delField_eq_self _ _ hver, delField_eq_self _ _ hrbk]
  · by_cases hso : s = "oci"
    · subst hso
      obtain ⟨hrb, hlike⟩ := hoci hrt
      have hshaNone : lookupField gs "fileSha256" = none :=
        hsha "oci" hrt (by decide)
      exact canon_elem_stages _ _ _ _ _
        (oci_stage_skip _ (by rw [rtTextF_def, hrt]; exact sqlNeq_some_self _)
          (by rw [rbTextF_def, idTextF_def, hrb, hlike]; rfl))
        (mcpb_stage_guard _ (by
          rw [rtTextF_def, hrt]; exact sqlNeq_some_of_ne _ _ (by decide)))
        (forbidden_stage_skip _ (by rw [sqlHasB_obj, hshaNone]; simp))
        htr'
    · by_cases hsm : s = "mcpb"
      · subst hsm
        obtain ⟨hver, hrbk⟩ := hmcpb hrt
        refine canon_elem_stages _ _ _ _ _
          (oci_stage_guard _ (by
            rw [rtTextF_def, hrt]; exact sqlNeq_some_of_ne _ _ (by decide)))
          ?_
          (forbidden_stage_skip _ (by
            rw [rtTextF_def, hrt, sqlNeq_some_self]; rfl))
          htr'
        rw [mcpb_stage_rewrite _ (by
            rw [rtTextF_def, hrt]; exact sqlNeq_some_self _),
          delField_eq_self _ _ hver, delField_eq_self _ _ hrbk]
      · have hshaNone : lookupField gs "fileSha256" = none := hsha s hrt hsm
        exact canon_elem_stages _ _ _ _ _
          (oci_stage_guard _ (by
            rw [rtTextF_def, hrt]; exact sqlNeq_some_of_ne _ _ hso))
          (mcpb_stage_guard _ (by
            rw [rtTextF_def, hrt]; exact sqlNeq_some_of_ne _ _ hsm))
          (forbidden_stage_skip _ (by rw [sqlHasB_obj, hshaNone]; simp))
          htr'

/-- Facts about the fields of `ociRewritten fs id`. -/
theorem ociRewritten_version (fs : List (String × Json)) (id : String) :
    lookupField (ociRewritten fs id) "version" = none :=
  lookupField_delField_self _ _

theorem ociRewritten_rb (fs : List (String × Json)) (id : String) :
    lookupField (ociRewritten fs id) "registryBaseUrl" = none := by
  unfold ociRewritten
  rw [lookupField_delField_ne _ "version" "registryBaseUrl" (by decide),
    lookupField_delField_self]

theorem ociRewritten_id (fs : List (String × Json)) (id : String) :
    idTextF (ociRewritten fs id) = some (mkCanonicalRef fs id) := by
  unfold idTextF ociRewritten
  rw [lookupField_delField_ne _ "version" "identifier" (by decide),
    lookupField_delField_ne _ "registryBaseUrl" "identifier" (by decide),
    lookupField_setField_self]
  rfl

theorem ociRewritten_rt (fs : List (String × Json)) (id : String) :
    rtTextF (ociRewritten fs id) = rtTextF fs := by
  unfold rtTextF ociRewritten
  rw [lookupField_delField_ne _ "version" "registryType" (by decide),
    lookupField_delField_ne _ "registryBaseUrl" "registryType" (by decide),
    lookupField_setField_ne _ "identifier" "registryType" _ (by decide)]

theorem ociRewritten_transport (fs : List (String × Json)) (id : String) :
    lookupField (ociRewritten fs id) "transport"
      = lookupField fs "transport" := by
  unfold ociRewritten
  rw [lookupField_delField_ne _ "version" "transport" (by decide),
    lookupField_delField_ne _ "registryBaseUrl" "transport" (by decide),
    lookupField_setField_ne _ "identifier" "transport" _ (by decide)]

/-- Facts about the fields of the MCPB deletion result. -/
theorem mcpbDeleted_version (fs : List (String × Json)) :
    lookupField (delField (delField fs "version") "registryBaseUrl")
      "version" = none := by
  rw [lookupField_delField_ne _ "registryBaseUrl" "version" (by decide),
    lookupField_delField_self]

theorem mcpbDeleted_rb (fs : List (String × Json)) :
    lookupField (delField (delField fs "version") "registryBaseUrl")
      "registryBaseUrl" = none :=
  lookupField_delField_self _ _

theorem mcpbDeleted_rt (fs : List (String × Json)) :
    rtTextF (delField (delField fs "version") "registryBaseUrl")
      = rtTextF fs := by
  unfold rtTextF
  rw [lookupField_delField_ne _ "registryBaseUrl" "registryType" (by decide),
    lookupField_delField_ne _ "version" "registryType" (by decide)]

theorem mcpbDeleted_id (fs : List (String × Json)) :
    idTextF (delField (delField fs "version") "registryBaseUrl")
      = idTextF fs := by
  unfold idTextF
  rw [lookupField_delField_ne _ "registryBaseUrl" "identifier" (by decide),
    lookupField_delField_ne _ "version" "identifier" (by decide)]

theorem mcpbDeleted_transport (fs : List (String × Json)) :
    lookupField (delField (delField fs "version") "registryBaseUrl")
      "transport" = lookupField fs "transport" := by
  rw [lookupField_delField_ne _ "registryBaseUrl" "transport" (by decide),
    lookupField_delField_ne _ "version" "transport" (by decide)]

/-- Every successful run of the pipeline on an object element lands in
`PipelinePost`: the element is erased to SQL NULL or becomes a canonical
object with its transport preserved. -/
theorem canon_elem_obj_post (fs : List (String × Json)) (r : Option Json)
    (h : canonicalize_element (.obj fs) = .ok r) : PipelinePost fs r := by
  by_cases hg1 : sqlNeq (sqlText (some (.obj fs)) "registryType") "oci" = true
  · -- registryType text present and different from `oci`: OCI stage no-op.
    obtain ⟨s, hrt, hs_oci⟩ := (sqlNeq_true_iff _ _).mp hg1
    rw [rtTextF_def] at hrt
    by_cases hg2 : sqlNeq (sqlText (some (.obj fs)) "registryType") "mcpb" = true
    · -- also different from `mcpb`: only the forbidden-field strip can act.
      have hs_mcpb : s ≠ "mcpb" := by
        obtain ⟨s', hrt', hs'⟩ := (sqlNeq_true_iff _ _).mp hg2
        rw [rtTextF_def, hrt] at hrt'
        exact (Option.some.inj hrt') ▸ hs'
      obtain ⟨base, hforb, hbsha, hbpres⟩ :=
        forbidden_stage_post fs s hrt hs_mcpb
      obtain ⟨gs, htrans, hgst, hgpres, hgtr⟩ := transport_stage_post base
      have hcomp : canonicalize_element (.obj fs) = .ok (some (.obj gs)) :=
        canon_elem_stages _ _ _ _ _ (oci_stage_guard _ hg1)
          (mcpb_stage_guard _ hg2) hforb htrans
      rw [hcomp] at h
      injection h with h'
      subst h'
      have hrtgs : rtTextF gs = some s := by
        unfold rtTextF
        rw [hgpres "registryType" (by decide), hbpres "registryType" (by decide)]
        exact hrt
      have hshags : lookupField gs "fileSha256" = none := by
        rw [hgpres "fileSha256" (by decide)]
        exact hbsha
      refine Or.inr ⟨gs, rfl, ⟨hgst, ?_, ?_, ?_, ?_⟩, ?_⟩
      · exact fun _ _ _ => hshags
      · intro hcon
        rw [hrtgs] at hcon
        exact absurd (Option.some.inj hcon) hs_oci
      · intro hcon
        rw [hrtgs] at hcon
        exact absurd (Option.some.inj hcon) hs_mcpb
      · intro hcon
        rw [hrtgs] at hcon
        exact Option.noConfusion hcon
      · intro t hft
        exact hgtr t (by rw [hbpres "transport" (by decide)]; exact hft)
    · -- registryType text = `mcpb`: the MCPB deletions act.
      have hsm : s = "mcpb" := by
        rcases (sqlNeq_false_iff _ _).mp (Bool.eq_false_iff.mpr hg2) with hn | hsome
        · rw [rtTextF_def, hrt] at hn
          exact Option.noConfusion hn
        · rw [rtTextF_def, hrt] at hsome
          exact Option.some.inj hsome
      subst hsm
      have hg2' : sqlNeq (sqlText (some (.obj fs)) "registryType") "mcpb"
          = false := Bool.eq_false_iff.mpr hg2
      have hmc := mcpb_stage_rewrite fs hg2'
      have hrtb2 : rtTextF (delField (delField fs "version") "registryBaseUrl")
          = some "mcpb" := by rw [mcpbDeleted_rt]; exact hrt
      have hforb : remove_forbidden_fields
          (some (.obj (delField (delField fs "version") "registryBaseUrl")))
          = .ok (some (.obj (delField (delField fs "version") "registryBaseUrl"))) := by
        refine forbidden_stage_skip _ ?_
        rw [rtTextF_def, hrtb2, sqlNeq_some_self]
        rfl
      obtain ⟨gs, htrans, hgst, hgpres, hgtr⟩ :=
        transport_stage_post (delField (delField fs "version") "registryBaseUrl")
      have hcomp : canonicalize_element (.obj fs) = .ok (some (.obj gs)) :=
        canon_elem_stages _ _ _ _ _ (oci_stage_guard _ hg1) hmc hforb htrans
      rw [hcomp] at h
      injection h with h'
      subst h'
      have hrtgs : rtTextF gs = some "mcpb" := by
        unfold rtTextF
        rw [hgpres "registryType" (by decide)]
        exact hrtb2
      refine Or.inr ⟨gs, rfl, ⟨hgst, ?_, ?_, ?_, ?_⟩, ?_⟩
      · intro s' hs' hne
        rw [hrtgs] at hs'
        exact absurd (Option.some.inj hs').symm hne
      · intro hcon
        rw [hrtgs] at hcon
        exact absurd (Option.some.inj hcon) (by decide)
      · intro _
        constructor
        · rw [hgpres "version" (by decide)]
          exact mcpbDeleted_version fs
        · rw [hgpres "registryBaseUrl" (by decide)]
          exact mcpbDeleted_rb fs
      · intro hcon
        rw [hrtgs] at hcon
        exact Option.noConfusion hcon
      · intro t hft
        exact hgtr t (by rw [mcpbDeleted_transport]; exact hft)
  · -- registryType text is NULL or `oci`: the OCI stage processes.
    have hg1' : sqlNeq (sqlText (some (.obj fs)) "registryType") "oci" = false :=
      Bool.eq_false_iff.mpr hg1
    by_cases hskip : ((sqlText (some (.obj fs)) "registryBaseUrl").isNone
        && sqlLikeCanonical (sqlText (some (.obj fs)) "identifier")) = true
    · -- skip guard: already canonical, OCI stage no-op.
      obtain ⟨hrbn, hlike⟩ := (skip_guard_true_iff _ _).mp hskip
      rw [rbTextF_def] at hrbn
      rw [idTextF_def] at hlike
      have hoci : convert_oci_package_to_canonical (some (.obj fs))
          = .ok (some (.obj fs)) := oci_stage_skip _ hg1' hskip
      rcases (sqlNeq_false_iff _ _).mp hg1' with hrtn | hrto
      · -- registryType text NULL: MCPB deletions also act.
        rw [rtTextF_def] at hrtn
        have hg2' : sqlNeq (sqlText (some (.obj fs)) "registryType") "mcpb"
            = false := by rw [rtTextF_def, hrtn]; rfl
        have hmc := mcpb_stage_rewrite fs hg2'
        have hrtb2 : rtTextF (delField (delField fs "version") "registryBaseUrl")
            = none := by rw [mcpbDeleted_rt]; exact hrtn
        have hforb : remove_forbidden_fields
            (some (.obj (delField (delField fs "version") "registryBaseUrl")))
            = .ok (some (.obj (delField (delField fs "version") "registryBaseUrl"))) := by
          refine forbidden_stage_skip _ ?_
          rw [rtTextF_def, hrtb2]
          rfl
        obtain ⟨gs, htrans, hgst, hgpres, hgtr⟩ :=
          transport_stage_post (delField (delField fs "version") "registryBaseUrl")
        have hcomp : canonicalize_element (.obj fs) = .ok (some (.obj gs)) :=
          canon_elem_stages _ _ _ _ _ hoci hmc hforb htrans
        rw [hcomp] at h
        injection h with h'
        subst h'
        have hrtgs : rtTextF gs = none := by
          unfold rtTextF
          rw [hgpres "registryType" (by decide)]
          exact hrtb2
        refine Or.inr ⟨gs, rfl, ⟨hgst, ?_, ?_, ?_, ?_⟩, ?_⟩
        · intro s' hs' _
          rw [hrtgs] at hs'
          exact Option.noConfusion hs'
        · intro hcon
          rw [hrtgs] at hcon
          exact Option.noConfusion hcon
        · intro hcon
          rw [hrtgs] at hcon
          exact Option.noConfusion hcon
        · intro _
          refine ⟨?_, ?_, ?_, ?_⟩
          · unfold rbTextF
            rw [hgpres "registryBaseUrl" (by decide), mcpbDeleted_rb]
            rfl
          · have : idTextF gs = idTextF fs := by
              unfold idTextF
              rw [hgpres "identifier" (by decide)]
              exact mcpbDeleted_id fs
            rw [this]
            exact hlike
          · rw [hgpres "version" (by decide)]
            exact mcpbDeleted_version fs
          · rw [hgpres "registryBaseUrl" (by decide)]
            exact mcpbDeleted_rb fs
        · intro t hft
          exact hgtr t (by rw [mcpbDeleted_transport]; exact hft)
      · -- registryType text `oci`.
        rw [rtTextF_def] at hrto
        have hg2 : sqlNeq (sqlText (some (.obj fs)) "registryType") "mcpb"
            = true := by
          rw [rtTextF_def, hrto]
          exact sqlNeq_some_of_ne _ _ (by decide)
        obtain ⟨base, hforb, hbsha, hbpres⟩ :=
          forbidden_stage_post fs "oci" hrto (by decide)
        obtain ⟨gs, htrans, hgst, hgpres, hgtr⟩ := transport_stage_post base
        have hcomp : canonicalize_element (.obj fs) = .ok (some (.obj gs)) :=
          canon_elem_stages _ _ _ _ _ hoci (mcpb_stage_guard _ hg2) hforb htrans
        rw [hcomp] at h
        injection h with h'
        subst h'
        have hrtgs : rtTextF gs = some "oci" := by
          unfold rtTextF
          rw [hgpres "registryType" (by decide), hbpres "registryType" (by decide)]
          exact hrto
        have hshags : lookupField gs "fileSha256" = none := by
          rw [hgpres "fileSha256" (by decide)]
          exact hbsha
        refine Or.inr ⟨gs, rfl, ⟨hgst, ?_, ?_, ?_, ?_⟩, ?_⟩
        · exact fun _ _ _ => hshags
        · intro _
          constructor
          · unfold rbTextF
            rw [hgpres "registryBaseUrl" (by decide),
              hbpres "registryBaseUrl" (by decide)]
            exact hrbn
          · have : idTextF gs = idTextF fs := by
              unfold idTextF
              rw [hgpres "identifier" (by decide), hbpres "identifier" (by decide)]
            rw [this]
            exact hlike
        · intro hcon
          rw [hrtgs] at hcon
          exact absurd (Option.some.inj hcon) (by decide)
        · intro hcon
          rw [hrtgs] at hcon
          exact Option.noConfusion hcon
        · intro t hft
          exact hgtr t (by rw [hbpres "transport" (by decide)]; exact hft)
    · -- rewrite branch of the OCI stage.
      have hskip' : ((sqlText (some (.obj fs)) "registryBaseUrl").isNone
          && sqlLikeCanonical (sqlText (some (.obj fs)) "identifier")) = false :=
        Bool.eq_false_iff.mpr hskip
      rcases hid : sqlText (some (.obj fs)) "identifier" with _ | id
      · -- identifier text NULL: the element collapses to SQL NULL.
        have hoci := oci_stage_null_id (some (.obj fs)) hg1' hskip' hid
        have hcomp : canonicalize_element (.obj fs) = .ok none :=
          canon_elem_stages _ _ _ _ _ hoci mcpb_stage_none
            (forbidden_stage_skip none rfl) transport_stage_none
        rw [hcomp] at h
        injection h with h'
        subst h'
        exact Or.inl rfl
      · -- rewrite to the canonical reference.
        have hoci := oci_stage_rewrite fs id hg1' hskip' hid
        have hlike : sqlLikeCanonical (idTextF (ociRewritten fs id)) = true := by
          rw [ociRewritten_id]
          exact mkCanonicalRef_canonical fs id
        rcases (sqlNeq_false_iff _ _).mp hg1' with hrtn | hrto
        · -- registryType text NULL.
          rw [rtTextF_def] at hrtn
          have hrtg1 : rtTextF (ociRewritten fs id) = none := by
            rw [ociRewritten_rt]
            exact hrtn
          have hmc : convert_mcpb_package_to_canonical
              (some (.obj (ociRewritten fs id)))
              = .ok (some (.obj (ociRewritten fs id))) := by
            rw [mcpb_stage_rewrite _ (by rw [rtTextF_def, hrtg1]; rfl),
              delField_eq_self _ _ (ociRewritten_version fs id),
              delField_eq_self _ _ (ociRewritten_rb fs id)]
          have hforb : remove_forbidden_fields
              (some (.obj (ociRewritten fs id)))
              = .ok (some (.obj (ociRewritten fs id))) := by
            refine forbidden_stage_skip _ ?_
            rw [rtTextF_def, hrtg1]
            rfl
          obtain ⟨gs, htrans, hgst, hgpres, hgtr⟩ :=
            transport_stage_post (ociRewritten fs id)
          have hcomp : canonicalize_element (.obj fs) = .ok (some (.obj gs)) :=
            canon_elem_stages _ _ _ _ _ hoci hmc hforb htrans
          rw [hcomp] at h
          injection h with h'
          subst h'
          have hrtgs : rtTextF gs = none := by
            unfold rtTextF
            rw [hgpres "registryType" (by decide)]
            exact hrtg1
          refine Or.inr ⟨gs, rfl, ⟨hgst, ?_, ?_, ?_, ?_⟩, ?_⟩
          · intro s' hs' _
            rw [hrtgs] at hs'
            exact Option.noConfusion hs'
          · intro hcon
            rw [hrtgs] at hcon
            exact Option.noConfusion hcon
          · intro hcon
            rw [hrtgs] at hcon
            exact Option.noConfusion hcon
          · intro _
            refine ⟨?_, ?_, ?_, ?_⟩
            · unfold rbTextF
              rw [hgpres "registryBaseUrl" (by decide), ociRewritten_rb]
              rfl
            · have : idTextF gs = idTextF (ociRewritten fs id) := by
                unfold idTextF
                rw [hgpres "identifier" (by decide)]
              rw [this]
              exact hlike
            · rw [hgpres "version" (by decide)]
              exact ociRewritten_version fs id
            · rw [hgpres "registryBaseUrl" (by decide)]
              exact ociRewritten_rb fs id
          · intro t hft
            exact hgtr t (by rw [ociRewritten_transport]; exact hft)
        · -- registryType text `oci`.
          rw [rtTextF_def] at hrto
          have hrtg1 : rtTextF (ociRewritten fs id) = some "oci" := by
            rw [ociRewritten_rt]
            exact hrto
          have hg2 : sqlNeq (sqlText (some (.obj (ociRewritten fs id)))
              "registryType") "mcpb" = true := by
            rw [rtTextF_def, hrtg1]
            exact sqlNeq_some_of_ne _ _ (by decide)
          obtain ⟨base, hforb, hbsha, hbpres⟩ :=
            forbidden_stage_post (ociRewritten fs id) "oci" hrtg1 (by decide)
          obtain ⟨gs, htrans, hgst, hgpres, hgtr⟩ := transport_stage_post base
          have hcomp : canonicalize_element (.obj fs) = .ok (some (.obj gs)) :=
            canon_elem_stages _ _ _ _ _ hoci (mcpb_stage_guard _ hg2) hforb htrans
          rw [hcomp] at h
          injection h with h'
          subst h'
          have hrtgs : rtTextF gs = some "oci" := by
            unfold rtTextF
            rw [hgpres "registryType" (by decide), hbpres "registryType" (by decide)]
            exact hrtg1
          have hshags : lookupField gs "fileSha256" = none := by
            rw [hgpres "fileSha256" (by decide)]
            exact hbsha
          refine Or.inr ⟨gs, rfl, ⟨hgst, ?_, ?_, ?_, ?_⟩, ?_⟩
          · exact fun _ _ _ => hshags
          · intro _
            constructor
            · unfold rbTextF
              rw [hgpres "registryBaseUrl" (by decide),
                hbpres "registryBaseUrl" (by decide), ociRewritten_rb]
              rfl
            · have : idTextF gs = idTextF (ociRewritten fs id) := by
                unfold idTextF
                rw [hgpres "identifier" (by decide), hbpres "identifier" (by decide)]
              rw [this]
              exact hlike
          · intro hcon
            rw [hrtgs] at hcon
            exact absurd (Option.some.inj hcon) (by decide)
          · intro hcon
            rw [hrtgs] at hcon
            exact Option.noConfusion hcon
          · intro t hft
            refine hgtr t ?_
            rw [hbpres "transport" (by decide), ociRewritten_transport]
            exact hft

/-! ## Idempotence, from elements up to the corpus -/

/-- One more pipeline run on the stored form of a pipeline output changes
nothing. -/
theorem canon_elem_idem (e : Json) (r : Option Json)
    (h : canonicalize_element e = .ok r) :
    canonicalize_element (jsonb_build_elem r) = .ok r := by
  cases e with
  | obj fs =>
    rcases canon_elem_obj_post fs r h with rfl | ⟨gs, rfl, hc, _⟩
    · exact canon_elem_null
    · exact canonicalObj_fixed gs hc
  | null =>
    rw [canon_elem_null] at h
    injection h with h'
    subst h'
    exact canon_elem_null
  | bool b =>
    rw [canon_elem_bool] at h
    injection h with h'
    subst h'
    exact canon_elem_null
  | num n =>
    rw [canon_elem_num] at h
    injection h with h'
    subst h'
    exact canon_elem_null
  | str s =>
    rw [canon_elem_str] at h
    injection h with h'
    subst h'
    exact canon_elem_null
  | arr xs =>
    rw [canon_elem_arr] at h
    injection h with h'
    subst h'
    exact canon_elem_null

/-- The loop preserves the element count. -/
theorem convertLoop_length (xs ys : List Json) (h : convertLoop xs = .ok ys) :
    ys.length = xs.length := by
  induction xs generalizing ys with
  | nil =>
    injection h with h'
    subst h'
    rfl
  | cons e es ih =>
    unfold convertLoop at h
    rcases he : canonicalize_element e with _ | rr <;> rw [he] at h
    · cases h
    · rcases hes : convertLoop es with _ | ys' <;> rw [hes] at h
      · cases h
      · injection h with h'
        subst h'
        simp [ih ys' hes]

/-- The loop is idempotent on its own output. -/
theorem convertLoop_idem (xs ys : List Json) (h : convertLoop xs = .ok ys) :
    convertLoop ys = .ok ys := by
  induction xs generalizing ys with
  | nil =>
    injection h with h'
    subst h'
    rfl
  | cons e es ih =>
    unfold convertLoop at h
    rcases he : canonicalize_element e with _ | rr <;> rw [he] at h
    · cases h
    · rcases hes : convertLoop es with _ | ys' <;> rw [hes] at h
      · cases h
      · injection h with h'
        subst h'
        unfold convertLoop
        rw [canon_elem_idem e rr he, ih ys' hes]

/-- Inversion of the UPDATE's WHERE clause. -/
theorem rowEligible_true_elim (val : Option Json)
    (h : rowEligible val = .ok true) :
    ∃ vfs xs, val = some (.obj vfs)
      ∧ lookupField vfs "packages" = some (.arr xs) ∧ xs.length > 0 := by
  match val with
  | none => cases h
  | some v =>
    simp only [rowEligible] at h
    by_cases hh : jbHas v "packages" = true
    · simp only [hh, Bool.not_true, Bool.false_eq_true, if_false] at h
      rcases hg : jGet v "packages" with _ | pv
      · rw [hg] at h
        simp at h
      · rw [hg] at h
        match pv, h with
        | .arr xs, h =>
          match v, hg with
          | .obj vfs, hg =>
            refine ⟨vfs, xs, rfl, hg, ?_⟩
            simp only [Except.ok.injEq] at h
            exact of_decide_eq_true h
    · simp only [Bool.eq_false_iff.mpr hh, Bool.not_false, if_true] at h
      cases h

theorem jbHas_obj (fs : List (String × Json)) (k : String) :
    jbHas (.obj fs) k = (lookupField fs k).isSome := rfl

theorem jGet_obj (fs : List (String × Json)) (k : String) :
    jGet (.obj fs) k = lookupField fs k := rfl

/-- The WHERE clause accepts an object row with a non-empty packages
array. -/
theorem rowEligible_of_packages (vfs : List (String × Json)) (xs : List Json)
    (hpk : lookupField vfs "packages" = some (.arr xs))
    (hlen : xs.length ≠ 0) :
    rowEligible (some (.obj vfs)) = .ok true := by
  simp only [rowEligible, jbHas_obj, jGet_obj, hpk, Option.isSome_some,
    Bool.not_true, Bool.false_eq_true, if_false]
  simp [Nat.pos_of_ne_zero hlen]

/-- The UPDATE's SET clause on an eligible row, in closed form. -/
theorem updateRow_eligible (name : String) (vfs : List (String × Json))
    (xs ys : List Json)
    (hpk : lookupField vfs "packages" = some (.arr xs))
    (hlen : xs.length ≠ 0) (hloop : convertLoop xs = .ok ys) :
    updateRow ⟨name, some (.obj vfs)⟩
      = .ok ⟨name, some (.obj (setField vfs "packages" (.arr ys)))⟩ := by
  unfold updateRow
  simp only [rowEligible_of_packages vfs xs hpk hlen]
  simp only [Option.some_bind, jGet_obj, hpk, convert_packages_array]
  rw [if_neg hlen]
  simp only [hloop, jbSet]

/-- An ineligible row is returned unchanged. -/
theorem updateRow_ineligible (r : ServerRow)
    (h : rowEligible r.value = .ok false) : updateRow r = .ok r := by
  unfold updateRow
  simp only [h]

/-- One more UPDATE pass on an already-updated row changes nothing. -/
theorem updateRow_idem (r r' : ServerRow) (h : updateRow r = .ok r') :
    updateRow r' = .ok r' := by
  rcases helig : rowEligible r.value with e | b
  · have hcalc : updateRow r = .error e := by
      unfold updateRow
      simp only [helig]
    rw [hcalc] at h
    cases h
  · cases b with
    | false =>
      have hcalc : updateRow r = .ok r := updateRow_ineligible r helig
      rw [hcalc] at h
      injection h with h'
      subst h'
      exact updateRow_ineligible r helig
    | true =>
      obtain ⟨vfs, xs, hval, hpk, hlen⟩ := rowEligible_true_elim r.value helig
      have hlen' : xs.length ≠ 0 := Nat.pos_iff_ne_zero.mp hlen
      rcases hloop : convertLoop xs with err | ys
      · have hcalc : updateRow r = .error err := by
          have hr : r = ⟨r.server_name, some (.obj vfs)⟩ := by
            cases r
            simp_all
          rw [hr]
          unfold updateRow
          simp only [rowEligible_of_packages vfs xs hpk hlen']
          simp only [Option.some_bind, jGet_obj, hpk, convert_packages_array]
          rw [if_neg hlen']
          simp only [hloop]
        rw [hcalc] at h
        cases h
      · have hr : r = ⟨r.server_name, some (.obj vfs)⟩ := by
          cases r
          simp_all
        have hcalc := updateRow_eligible r.server_name vfs xs ys hpk hlen' hloop
        rw [hr, hcalc] at h
        injection h with h'
        subst h'
        have hlenys : ys.length ≠ 0 := by
          rw [convertLoop_length xs ys hloop]
          exact hlen'
        have hcalc' := updateRow_eligible r.server_name
          (setField vfs "packages" (.arr ys)) ys ys
          (lookupField_setField_self _ _ _) hlenys
          (convertLoop_idem xs ys hloop)
        rw [hcalc']
        simp only [setField_setField_same]

/-- One more full-corpus UPDATE on an already-updated corpus changes
nothing. -/
theorem migrationUpdate_idem (db db' : List ServerRow)
    (h : migrationUpdate db = .ok db') : migrationUpdate db' = .ok db' := by
  induction db generalizing db' with
  | nil =>
    injection h with h'
    subst h'
    rfl
  | cons r rs ih =>
    unfold migrationUpdate at h
    rcases hr : updateRow r with _ | r' <;> rw [hr] at h
    · cases h
    · rcases hrs : migrationUpdate rs with _ | rs' <;> rw [hrs] at h
      · cases h
      · injection h with h'
        subst h'
        unfold migrationUpdate
        rw [updateRow_idem r r' hr, ih rs' hrs]

/-! ## The array-level invariant -/

/-- Every element relates to its pipeline output by the amended package
invariant. -/
theorem canon_elem_invariant (e : Json) (r : Option Json)
    (h : canonicalize_element e = .ok r) :
    AmendedPkgInvariant e (jsonb_build_elem r) := by
  have obj_case : ∀ fs, e = .obj fs → AmendedPkgInvariant e (jsonb_build_elem r) := by
    intro fs he
    subst he
    rcases canon_elem_obj_post fs r h with rfl | ⟨gs, rfl, hc, hpres⟩
    · exact ⟨Or.inl rfl, fun _ hcon => Json.noConfusion hcon⟩
    · obtain ⟨htr, hsha, hoci, hmcpb, _⟩ := hc
      refine ⟨Or.inr ⟨gs, rfl⟩, ?_⟩
      intro gs' hgs'
      obtain rfl : gs = gs' := Json.obj.inj hgs'
      refine ⟨htr, ?_, hmcpb, hsha, ?_⟩
      · intro hrt
        exact ⟨(hoci hrt).1, hsha "oci" hrt (by decide)⟩
      · intro fs' t hfs' ht
        obtain rfl : fs = fs' := Json.obj.inj hfs'
        exact hpres t ht
  have null_case : r = none → AmendedPkgInvariant e (jsonb_build_elem r) := by
    rintro rfl
    exact ⟨Or.inl rfl, fun _ hcon => Json.noConfusion hcon⟩
  cases e with
  | obj fs => exact obj_case fs rfl
  | null =>
    rw [canon_elem_null] at h
    exact null_case (Except.ok.inj h).symm
  | bool b =>
    rw [canon_elem_bool] at h
    exact null_case (Except.ok.inj h).symm
  | num n =>
    rw [canon_elem_num] at h
    exact null_case (Except.ok.inj h).symm
  | str s =>
    rw [canon_elem_str] at h
    exact null_case (Except.ok.inj h).symm
  | arr xs =>
    rw [canon_elem_arr] at h
    exact null_case (Except.ok.inj h).symm

/-- The loop output relates pointwise to the input. -/
theorem convertLoop_invariant (xs ys : List Json)
    (h : convertLoop xs = .ok ys) :
    List.Forall₂ AmendedPkgInvariant xs ys := by
  induction xs generalizing ys with
  | nil =>
    injection h with h'
    subst h'
    exact List.Forall₂.nil
  | cons e es ih =>
    unfold convertLoop at h
    rcases he : canonicalize_element e with _ | rr <;> rw [he] at h
    · cases h
    · rcases hes : convertLoop es with _ | ys' <;> rw [hes] at h
      · cases h
      · injection h with h'
        subst h'
        exact List.Forall₂.cons (canon_elem_invariant e rr he) (ih ys' hes)

/-! ## Claim theorems -/

/-- Claim C1 (amended).  Canonicalization is idempotent: re-running the
pipeline on a stored pipeline output reproduces it, and a second run of the
full-corpus migration UPDATE over an already-migrated corpus returns that
corpus unchanged (so the second run makes no further changes and its
remaining-legacy count equals the first run's).  The original claim's
further assertion — that the remaining-legacy count after the second run is
zero — is false: see the counterexample. -/
theorem claim1_idempotence_and_convergence :
    (∀ (e : Json) (r : Option Json), canonicalize_element e = .ok r →
      canonicalize_element (jsonb_build_elem r) = .ok r)
    ∧ (∀ db db' : List ServerRow, migrationUpdate db = .ok db' →
      migrationUpdate db' = .ok db') :=
  ⟨canon_elem_idem, migrationUpdate_idem⟩

/-- Witness for C1 at the spec's round-trip package and at a one-row
corpus. -/
theorem claim1_witness :
    canonicalize_element (.obj examplePkgC2)
      = .ok (some (.obj [("registryType", .str "oci"),
        ("identifier", .str "docker.io/ns/img:1.2.3"),
        ("transport", .obj [("type", .str "stdio")])]))
    ∧ canonicalize_element (jsonb_build_elem (some (.obj
        [("registryType", .str "oci"),
         ("identifier", .str "docker.io/ns/img:1.2.3"),
         ("transport", .obj [("type", .str "stdio")])])))
      = .ok (some (.obj [("registryType", .str "oci"),
        ("identifier", .str "docker.io/ns/img:1.2.3"),
        ("transport", .obj [("type", .str "stdio")])]))
    ∧ migrationUpdate c1dbBefore = .ok c1dbAfter
    ∧ migrationUpdate c1dbAfter = .ok c1dbAfter :=
  ⟨rfl,
    claim1_idempotence_and_convergence.1 (.obj examplePkgC2)
      (some (.obj [("registryType", .str "oci"),
        ("identifier", .str "docker.io/ns/img:1.2.3"),
        ("transport", .obj [("type", .str "stdio")])])) rfl,
    rfl,
    claim1_idempotence_and_convergence.2 c1dbBefore c1dbAfter rfl⟩

/-- Counterexample to C1 as stated: on a corpus with one OCI package whose
identifier already contains a colon but which still carries a legacy
`version` field, both migration runs succeed and change nothing further,
yet the remaining-legacy count after the second run is 1, not 0. -/
theorem claim1_counterexample :
    migrationUpdate c1dbBefore = .ok c1dbAfter
    ∧ migrationUpdate c1dbAfter = .ok c1dbAfter
    ∧ countLegacy c1dbAfter = .ok 1
    ∧ (1 : Nat) ≠ 0 :=
  ⟨rfl, rfl, rfl, by decide⟩

/-- Claim C3 (amended).  After `convert_packages_array`, every element is
JSON null or an object, and every object element has a `transport` field
(a pre-existing transport value is never overwritten); every OCI object
carries no `registryBaseUrl` text and no `fileSha256`; every MCPB object
carries no `version` or `registryBaseUrl`; and every object whose
`registryType` text is present and differs from `mcpb` carries no
`fileSha256`.  The original claim's stronger assertions — that OCI packages
also carry no `version` key and no `registryBaseUrl` key even when the key
holds JSON null, and that packages with an absent `registryType` lose
their `fileSha256` — are false: see the counterexample. -/
theorem claim3_canonical_invariants (xs ys : List Json)
    (h : convert_packages_array (some (.arr xs)) = .ok (some (.arr ys))) :
    List.Forall₂ AmendedPkgInvariant xs ys := by
  simp only [convert_packages_array] at h
  by_cases hlen : xs.length = 0
  · rw [if_pos hlen] at h
    obtain rfl : xs = [] := List.length_eq_zero.mp hlen
    obtain rfl : ([] : List Json) = ys := by
      have := Except.ok.inj h
      exact Json.arr.inj (Option.some.inj this)
    exact List.Forall₂.nil
  · rw [if_neg hlen] at h
    rcases hloop : convertLoop xs with _ | ys' <;> rw [hloop] at h
    · cases h
    · obtain rfl : ys' = ys :=
        Json.arr.inj (Option.some.inj (Except.ok.inj h))
      exact convertLoop_invariant _ _ hloop

/-- Witness for C3 on an array with an MCPB and an npm package. -/
theorem claim3_witness :
    convert_packages_array (some (.arr
      [.obj [("registryType", .str "mcpb"), ("identifier", .str "x"),
        ("version", .str "2.0"), ("fileSha256", .str "abcd")],
       .obj [("registryType", .str "npm"), ("identifier", .str "y"),
        ("fileSha256", .str "beef")]]))
      = .ok (some (.arr
        [.obj [("registryType", .str "mcpb"), ("identifier", .str "x"),
          ("fileSha256", .str "abcd"),
          ("transport", .obj [("type", .str "stdio")])],
         .obj [("registryType", .str "npm"), ("identifier", .str "y"),
          ("transport", .obj [("type", .str "stdio")])]]))
    ∧ List.Forall₂ AmendedPkgInvariant
        [.obj [("registryType", .str "mcpb"), ("identifier", .str "x"),
          ("version", .str "2.0"), ("fileSha256", .str "abcd")],
         .obj [("registryType", .str "npm"), ("identifier", .str "y"),
          ("fileSha256", .str "beef")]]
        [.obj [("registryType", .str "mcpb"), ("identifier", .str "x"),
          ("fileSha256", .str "abcd"),
          ("transport", .obj [("type", .str "stdio")])],
         .obj [("registryType", .str "npm"), ("identifier", .str "y"),
          ("transport", .obj [("type", .str "stdio")])]] :=
  ⟨rfl, claim3_canonical_invariants _ _ rfl⟩

/-- Counterexample to C3 as stated: after canonicalization, an OCI package
can still carry `version` (skip guard), a package with no `registryType`
keeps its `fileSha256` (the stage guards never fire on a NULL type text),
and an OCI package can keep a JSON-null `registryBaseUrl` key. -/
theorem claim3_counterexample :
    convert_packages_array (some (.arr [c3pkgVersionKept, c3pkgTypeless,
      c3pkgNullRb]))
      = .ok (some (.arr [c3outVersionKept, c3outTypeless, c3outNullRb]))
    ∧ jGet c3outVersionKept "registryType" = some (.str "oci")
    ∧ jbHas c3outVersionKept "version" = true
    ∧ jGet c3outTypeless "registryType" = none
    ∧ jbHas c3outTypeless "fileSha256" = true
    ∧ jGet c3outNullRb "registryType" = some (.str "oci")
    ∧ jbHas c3outNullRb "registryBaseUrl" = true :=
  ⟨rfl, rfl, rfl, rfl, rfl, rfl, rfl⟩

/-- Claim C2.  For an OCI object package with identifier text `id`: if it
is legacy (`registryBaseUrl` text present, or `id` containing neither a
colon nor `@sha256:`), the OCI stage replaces the identifier by
`host/id:tag` — `host` the scheme-stripped `registryBaseUrl` text
(`docker.io` when NULL), `tag` the `version` text (`latest` when NULL or
empty) — and deletes `registryBaseUrl` and `version`; if it is already
canonical (`registryBaseUrl` text NULL and `id` containing a colon or
`@sha256:`), the stage leaves it unchanged. -/
theorem claim2_oci_rewrite (fs : List (String × Json)) (id : String)
    (hrt : rtTextF fs = some "oci") (hid : idTextF fs = some id) :
    (((rbTextF fs).isSome = true
        ∨ (likeColon id = false ∧ likeSha256 id = false)) →
      convert_oci_package_to_canonical (some (.obj fs))
        = .ok (some (.obj (ociRewritten fs id))))
    ∧ ((rbTextF fs = none ∧ (likeColon id || likeSha256 id) = true) →
      convert_oci_package_to_canonical (some (.obj fs))
        = .ok (some (.obj fs))) := by
  have hg1 : sqlNeq (sqlText (some (.obj fs)) "registryType") "oci" = false := by
    rw [rtTextF_def, hrt]
    exact sqlNeq_some_self _
  have hid' : sqlText (some (.obj fs)) "identifier" = some id := by
    rw [idTextF_def]
    exact hid
  constructor
  · intro hleg
    refine oci_stage_rewrite fs id hg1 ?_ hid'
    rw [rbTextF_def, idTextF_def, hid]
    rcases hleg with hrb | ⟨hc, hs⟩
    · rcases hrbv : rbTextF fs with _ | u
      · rw [hrbv] at hrb
        cases hrb
      · rfl
    · simp [sqlLikeCanonical, hc, hs]
  · rintro ⟨hrbn, hlike⟩
    refine oci_stage_skip _ hg1 ?_
    rw [rbTextF_def, idTextF_def, hrbn, hid]
    simp [sqlLikeCanonical, hlike]

/-- Witness for C2: the spec's round-trip example rewrites to
`docker.io/ns/img:1.2.3` with `registryBaseUrl` and `version` gone, and a
canonical package is untouched. -/
theorem claim2_witness :
    rtTextF examplePkgC2 = some "oci"
    ∧ idTextF examplePkgC2 = some "ns/img"
    ∧ (rbTextF examplePkgC2).isSome = true
    ∧ convert_oci_package_to_canonical (some (.obj examplePkgC2))
      = .ok (some (.obj [("registryType", .str "oci"),
        ("identifier", .str "docker.io/ns/img:1.2.3")])) :=
  ⟨rfl, rfl, rfl,
    (claim2_oci_rewrite examplePkgC2 "ns/img" rfl rfl).1 (Or.inl rfl)⟩

/-- Claim C10.  On an object package whose `registryType` text is SQL NULL
(key absent or JSON null), none of the type guards fire: the OCI stage
rewrites a legacy-shaped package exactly as it rewrites an OCI package, the
MCPB stage deletes `version` and `registryBaseUrl`, and the forbidden-field
strip leaves the package — hence its `fileSha256` — untouched. -/
theorem claim10_null_type_guards (fs : List (String × Json)) (id : String)
    (hrt : rtTextF fs = none) (hid : idTextF fs = some id)
    (hleg : ¬(rbTextF fs = none ∧ sqlLikeCanonical (some id) = true)) :
    convert_oci_package_to_canonical (some (.obj fs))
      = .ok (some (.obj (ociRewritten fs id)))
    ∧ convert_mcpb_package_to_canonical (some (.obj fs))
      = .ok (some (.obj (delField (delField fs "version") "registryBaseUrl")))
    ∧ remove_forbidden_fields (some (.obj fs)) = .ok (some (.obj fs)) := by
  have hg1 : sqlNeq (sqlText (some (.obj fs)) "registryType") "oci" = false := by
    rw [rtTextF_def, hrt]
    rfl
  have hid' : sqlText (some (.obj fs)) "identifier" = some id := by
    rw [idTextF_def]
    exact hid
  refine ⟨?_, ?_, ?_⟩
  · refine oci_stage_rewrite fs id hg1 ?_ hid'
    rw [rbTextF_def, idTextF_def, hid]
    rcases hrbv : rbTextF fs with _ | u
    · have hlf : sqlLikeCanonical (some id) = false := by
        by_cases hl : sqlLikeCanonical (some id) = true
        · exact absurd ⟨hrbv, hl⟩ hleg
        · exact Bool.eq_false_iff.mpr hl
      simp [hlf]
    · rfl
  · refine mcpb_stage_rewrite fs ?_
    rw [rtTextF_def, hrt]
    rfl
  · refine forbidden_stage_skip _ ?_
    rw [rtTextF_def, hrt]
    rfl

/-- Witness for C10 on a typeless legacy package with a `fileSha256`. -/
theorem claim10_witness :
    rtTextF typelessLegacyPkg = none
    ∧ idTextF typelessLegacyPkg = some "ns/img"
    ∧ ¬(rbTextF typelessLegacyPkg = none
        ∧ sqlLikeCanonical (some "ns/img") = true)
    ∧ jbHas (.obj typelessLegacyPkg) "fileSha256" = true
    ∧ convert_oci_package_to_canonical (some (.obj typelessLegacyPkg))
      = .ok (some (.obj [("identifier", .str "h.io/ns/img:1.0"),
        ("fileSha256", .str "abc")]))
    ∧ remove_forbidden_fields (some (.obj typelessLegacyPkg))
      = .ok (some (.obj typelessLegacyPkg)) :=
  ⟨rfl, rfl, by decide, rfl,
    (claim10_null_type_guards typelessLegacyPkg "ns/img" rfl rfl
      (by decide)).1,
    (claim10_null_type_guards typelessLegacyPkg "ns/img" rfl rfl
      (by decide)).2.2⟩

/-- Claim C4 (amended).  `ValidateOCI` enforces no registry allowlist:
a package whose identifier resolves to `quay.io` passes every pre-fetch
check, and when the remote fetch succeeds and the image's config carries
the matching ownership label, validation succeeds — there is no
"unsupported registry" policy outcome in the function. -/
theorem claim4_no_allowlist (serverName : String) :
    ValidateOCI quayPackage serverName true
      (.config (some [(mcpServerNameLabel, serverName)])) = .ok := by
  simp [ValidateOCI, quayPackage, lookupLabel]

/-- Witness for C4 at a concrete server name. -/
theorem claim4_witness :
    ValidateOCI quayPackage "io.example/srv" true
      (.config (some [(mcpServerNameLabel, "io.example/srv")])) = .ok :=
  claim4_no_allowlist "io.example/srv"

/-- Counterexample to C4 as stated: the claim demands that a `quay.io`
identifier fail with a policy error independent of whether the image
exists, but `ValidateOCI` succeeds on it when the image exists with the
matching ownership label. -/
theorem claim4_counterexample :
    ValidateOCI quayPackage "com.example/test" true
      (.config (some [(mcpServerNameLabel, "com.example/test")])) = .ok := rfl

/-- Claim C5 (amended).  The format gate runs before reference parsing and
the remote fetch (the outcome below is independent of both oracles), and
its checks run in the order identifier-empty, `registryBaseUrl`,
`version`, `fileSha256`, each returning the error naming its own field.
The original claim's assertion that a package carrying a non-empty legacy
field always gets the error naming that field is false when the
identifier is empty: see the counterexample. -/
theorem claim5_format_gate (pkg : Package) (serverName : String)
    (parseOk : Bool) (fetch : FetchOutcome) :
    (pkg.identifier = "" →
      ValidateOCI pkg serverName parseOk fetch = .errMissingIdentifier)
    ∧ (pkg.identifier ≠ "" → pkg.registryBaseURL ≠ "" →
      ValidateOCI pkg serverName parseOk fetch = .errRegistryBaseUrlPresent)
    ∧ (pkg.identifier ≠ "" → pkg.registryBaseURL = "" → pkg.version ≠ "" →
      ValidateOCI pkg serverName parseOk fetch = .errVersionPresent)
    ∧ (pkg.identifier ≠ "" → pkg.registryBaseURL = "" → pkg.version = "" →
      pkg.fileSHA256 ≠ "" →
      ValidateOCI pkg serverName parseOk fetch = .errFileSha256Present) := by
  refine ⟨?_, ?_, ?_, ?_⟩
  · intro h1
    simp [ValidateOCI, h1]
  · intro h1 h2
    simp [ValidateOCI, h1, h2]
  · intro h1 h2 h3
    simp [ValidateOCI, h1, h2, h3]
  · intro h1 h2 h3 h4
    simp [ValidateOCI, h1, h2, h3, h4]

/-- Witness for C5: a canonical-looking identifier with a stray
`registryBaseUrl` is rejected with the error naming `registryBaseUrl`,
before parsing (the parse oracle is even set to failure). -/
theorem claim5_witness :
    (Package.mk "oci" "docker.io/a/b:1.0" "https://docker.io" "" "").identifier
      ≠ ""
    ∧ (Package.mk "oci" "docker.io/a/b:1.0" "https://docker.io" "" ""
        ).registryBaseURL ≠ ""
    ∧ ValidateOCI (Package.mk "oci" "docker.io/a/b:1.0" "https://docker.io"
        "" "") "com.example/test" false (.config none)
      = .errRegistryBaseUrlPresent :=
  ⟨by decide, by decide,
    (claim5_format_gate (Package.mk "oci" "docker.io/a/b:1.0"
      "https://docker.io" "" "") "com.example/test" false
      (.config none)).2.1 (by decide) (by decide)⟩

/-- Counterexample to C5 as stated: a package carrying a non-empty
`registryBaseUrl` but an empty identifier gets the missing-identifier
error, not a field-specific error naming `registryBaseUrl`. -/
theorem claim5_counterexample :
    ValidateOCI (Package.mk "oci" "" "https://docker.io" "" "")
      "com.example/test" true (.config none) = .errMissingIdentifier
    ∧ OciResult.errMissingIdentifier ≠ OciResult.errRegistryBaseUrlPresent :=
  ⟨rfl, by decide⟩

/-- Claim C6.  For a package that passes the format gate and parses: a
fetch failing with transport status 429 is a soft pass (`.ok`); statuses
404 and 401 are hard not-found/not-accessible failures; any other
transport status and any non-transport fetch error are hard wrapped fetch
failures. -/
theorem claim6_rate_limit_tolerance (pkg : Package) (serverName : String)
    (h1 : pkg.identifier ≠ "") (h2 : pkg.registryBaseURL = "")
    (h3 : pkg.version = "") (h4 : pkg.fileSHA256 = "") :
    ValidateOCI pkg serverName true (.transportError 429) = .ok
    ∧ ValidateOCI pkg serverName true (.transportError 404)
      = .errNotFoundOrNotAccessible 404
    ∧ ValidateOCI pkg serverName true (.transportError 401)
      = .errNotFoundOrNotAccessible 401
    ∧ (∀ s : Nat, s ≠ 429 → s ≠ 404 → s ≠ 401 →
      ValidateOCI pkg serverName true (.transportError s) = .errFetchFailed)
    ∧ ValidateOCI pkg serverName true .otherFetchError = .errFetchFailed := by
  refine ⟨?_, ?_, ?_, ?_, ?_⟩
  · simp [ValidateOCI, h1, h2, h3, h4]
  · simp [ValidateOCI, h1, h2, h3, h4]
  · simp [ValidateOCI, h1, h2, h3, h4]
  · intro s hs1 hs2 hs3
    simp [ValidateOCI, h1, h2, h3, h4, hs1, hs2, hs3]
  · simp [ValidateOCI, h1, h2, h3, h4]

/-- Witness for C6 on a concrete canonical package: 429 soft pass, 404
hard failure, 500 wrapped failure. -/
theorem claim6_witness :
    (Package.mk "oci" "docker.io/a/b:1.0" "" "" "").identifier ≠ ""
    ∧ ValidateOCI (Package.mk "oci" "docker.io/a/b:1.0" "" "" "")
        "com.example/test" true (.transportError 429) = .ok
    ∧ ValidateOCI (Package.mk "oci" "docker.io/a/b:1.0" "" "" "")
        "com.example/test" true (.transportError 404)
      = .errNotFoundOrNotAccessible 404
    ∧ ValidateOCI (Package.mk "oci" "docker.io/a/b:1.0" "" "" "")
        "com.example/test" true (.transportError 500) = .errFetchFailed :=
  ⟨by decide,
    (claim6_rate_limit_tolerance (Package.mk "oci" "docker.io/a/b:1.0" "" "" "")
      "com.example/test" (by decide) rfl rfl rfl).1,
    (claim6_rate_limit_tolerance (Package.mk "oci" "docker.io/a/b:1.0" "" "" "")
      "com.example/test" (by decide) rfl rfl rfl).2.1,
    (claim6_rate_limit_tolerance (Package.mk "oci" "docker.io/a/b:1.0" "" "" "")
      "com.example/test" (by decide) rfl rfl rfl).2.2.2.1 500
      (by decide) (by decide) (by decide)⟩

/-- Claim C7.  Given a fetched config: a nil label map, a missing
ownership key, or a mismatched value each fail (the error carrying the
identifier and the required server name for its remediation message), and
validation succeeds exactly when the label value equals the server
name. -/
theorem claim7_ownership_check (pkg : Package) (serverName : String)
    (ls : List (String × String))
    (h1 : pkg.identifier ≠ "") (h2 : pkg.registryBaseURL = "")
    (h3 : pkg.version = "") (h4 : pkg.fileSHA256 = "") :
    ValidateOCI pkg serverName true (.config none)
      = .errMissingLabel pkg.identifier serverName
    ∧ (lookupLabel ls mcpServerNameLabel = none →
      ValidateOCI pkg serverName true (.config (some ls))
        = .errMissingLabel pkg.identifier serverName)
    ∧ (∀ v, lookupLabel ls mcpServerNameLabel = some v → v ≠ serverName →
      ValidateOCI pkg serverName true (.config (some ls))
        = .errOwnershipMismatch serverName v)
    ∧ (ValidateOCI pkg serverName true (.config (some ls)) = .ok
      ↔ lookupLabel ls mcpServerNameLabel = some serverName) := by
  refine ⟨?_, ?_, ?_, ?_⟩
  · simp [ValidateOCI, h1, h2, h3, h4]
  · intro hl
    simp [ValidateOCI, h1, h2, h3, h4, hl]
  · intro v hl hv
    simp [ValidateOCI, h1, h2, h3, h4, hl, hv]
  · rcases hl : lookupLabel ls mcpServerNameLabel with _ | v
    · simp [ValidateOCI, h1, h2, h3, h4, hl]
    · by_cases hv : v = serverName
      · subst hv
        simp [ValidateOCI, h1, h2, h3, h4, hl]
      · simp [ValidateOCI, h1, h2, h3, h4, hl, hv]

/-- Witness for C7: the matching label passes, the mismatched one fails
with the expected/actual pair. -/
theorem claim7_witness :
    (Package.mk "oci" "docker.io/a/b:1.0" "" "" "").identifier ≠ ""
    ∧ ValidateOCI (Package.mk "oci" "docker.io/a/b:1.0" "" "" "")
        "io.github.x/y" true
        (.config (some [("io.modelcontextprotocol.server.name",
          "io.github.x/y")])) = .ok
    ∧ ValidateOCI (Package.mk "oci" "docker.io/a/b:1.0" "" "" "")
        "io.github.x/y" true
        (.config (some [("io.modelcontextprotocol.server.name",
          "io.github.x/z")]))
      = .errOwnershipMismatch "io.github.x/y" "io.github.x/z"
    ∧ ValidateOCI (Package.mk "oci" "docker.io/a/b:1.0" "" "" "")
        "io.github.x/y" true (.config none)
      = .errMissingLabel "docker.io/a/b:1.0" "io.github.x/y" :=
  ⟨by decide,
    (claim7_ownership_check (Package.mk "oci" "docker.io/a/b:1.0" "" "" "")
      "io.github.x/y" [("io.modelcontextprotocol.server.name",
        "io.github.x/y")] (by decide) rfl rfl rfl).2.2.2.mpr (by decide),
    (claim7_ownership_check (Package.mk "oci" "docker.io/a/b:1.0" "" "" "")
      "io.github.x/y" [("io.modelcontextprotocol.server.name",
        "io.github.x/z")] (by decide) rfl rfl rfl).2.2.1 "io.github.x/z"
      (by decide) (by decide),
    (claim7_ownership_check (Package.mk "oci" "docker.io/a/b:1.0" "" "" "")
      "io.github.x/y" [] (by decide) rfl rfl rfl).1⟩

/-- Claim C8.  The transport URL pattern accepts a string exactly when it
is `http://` or `https://` followed by at least one character, with no
RE2 whitespace anywhere; in particular the template URL is accepted and
the two malformed strings are rejected. -/
theorem claim8_url_pattern :
    (∀ s : String, urlPatternAccepts s = true ↔
      ∃ rest : List Char,
        (s.data = "http://".data ++ rest ∨ s.data = "https://".data ++ rest)
        ∧ rest ≠ [] ∧ ∀ c ∈ rest, isRe2Space c = false)
    ∧ urlPatternAccepts "https://example.com/mcp/\x7btenant_id\x7d" = true
    ∧ urlPatternAccepts "not a url at all" = false
    ∧ urlPatternAccepts "https://example.com/mcp with spaces" = false := by
  refine ⟨?_, by decide, by decide, by decide⟩
  intro s
  constructor
  · intro h
    simp only [urlPatternAccepts] at h
    rw [Bool.or_eq_true] at h
    rcases h with hA | hB
    · rw [Bool.and_eq_true, Bool.and_eq_true] at hA
      obtain ⟨⟨hd, hne⟩, hall⟩ := hA
      refine ⟨s.data.drop 7, Or.inl ?_, ?_, ?_⟩
      · conv_lhs => rw [← List.take_append_drop 7 s.data]
        rw [of_decide_eq_true hd]
      · intro hnil
        rw [hnil] at hne
        exact absurd hne (by decide)
      · intro c hc
        have := List.all_eq_true.mp hall c hc
        simpa using this
    · rw [Bool.and_eq_true, Bool.and_eq_true] at hB
      obtain ⟨⟨hd, hne⟩, hall⟩ := hB
      refine ⟨s.data.drop 8, Or.inr ?_, ?_, ?_⟩
      · conv_lhs => rw [← List.take_append_drop 8 s.data]
        rw [of_decide_eq_true hd]
      · intro hnil
        rw [hnil] at hne
        exact absurd hne (by decide)
      · intro c hc
        have := List.all_eq_true.mp hall c hc
        simpa using this
  · rintro ⟨rest, hor, hne, hall⟩
    simp only [urlPatternAccepts]
    rw [Bool.or_eq_true]
    rcases hor with hd | hd
    · left
      rw [hd]
      have hlen : ("http://".data).length = 7 := by decide
      rw [Bool.and_eq_true, Bool.and_eq_true]
      refine ⟨⟨?_, ?_⟩, ?_⟩
      · apply decide_eq_true
        rw [← hlen, List.take_left]
      · rw [← hlen, List.drop_left]
        cases rest with
        | nil => exact absurd rfl hne
        | cons a t => rfl
      · rw [← hlen, List.drop_left]
        exact List.all_eq_true.mpr fun c hc => by simp [hall c hc]
    · right
      rw [hd]
      have hlen : ("https://".data).length = 8 := by decide
      rw [Bool.and_eq_true, Bool.and_eq_true]
      refine ⟨⟨?_, ?_⟩, ?_⟩
      · apply decide_eq_true
        rw [← hlen, List.take_left]
      · rw [← hlen, List.drop_left]
        cases rest with
        | nil => exact absurd rfl hne
        | cons a t => rfl
      · rw [← hlen, List.drop_left]
        exact List.all_eq_true.mpr fun c hc => by simp [hall c hc]

/-- Witness for C8: the accepted template URL decomposes per the grammar. -/
theorem claim8_witness :
    ∃ rest : List Char,
      (("https://example.com/mcp/\x7btenant_id\x7d" : String).data
          = "http://".data ++ rest
        ∨ ("https://example.com/mcp/\x7btenant_id\x7d" : String).data
          = "https://".data ++ rest)
      ∧ rest ≠ [] ∧ ∀ c ∈ rest, isRe2Space c = false :=
  (claim8_url_pattern.1 "https://example.com/mcp/\x7btenant_id\x7d").mp
    (by decide)

/-- Claim C9.  The dry-run script leaves the committed corpus exactly as
it was, while computing in-transaction the very corpus that the live
script commits. -/
theorem claim9_dry_run_frame (db : List ServerRow) :
    (runScript db dryRunScript).committed = db
    ∧ (stepStmt ⟨db, db, false⟩ .migrate).current
      = (runScript db liveScript).committed := by
  unfold runScript dryRunScript liveScript
  simp only [List.foldl]
  rcases h : migrationUpdate db with e | db' <;> simp [stepStmt, h]

/-- Witness for C9 on the concrete one-row corpus: the dry run's committed
corpus is the input, and its in-transaction corpus equals the live run's
committed corpus. -/
theorem claim9_witness :
    (runScript c1dbBefore dryRunScript).committed = c1dbBefore
    ∧ (stepStmt ⟨c1dbBefore, c1dbBefore, false⟩ .migrate).current
      = (runScript c1dbBefore liveScript).committed :=
  claim9_dry_run_frame c1dbBefore

end Registry
